import Mathlib

/-!
# Bouncing balls: the physics kernel of `bro.cpp`

A shallow embedding of `struct Ball` (its constructor, `update`, `checkCollision`
and `resolveCollision`) and of the frame loop of `main` (lines 237-249).

Modelling conventions.
* `float` is idealised as an arbitrary linearly ordered field `F`; rounding is
  not modelled.  The literals `0.2f`, `0.8f`, `0.5f`, `0.0001f` are the
  fractions `1/5`, `4/5`, `1/2`, `1/10000`.
* `std::sqrt` is a parameter `sqrt : F → F`.  Properties that depend on what a
  square root is assume `IsSqrt sqrt`; the real numbers with `Real.sqrt`
  satisfy it.  The code only ever takes the root of a sum of two squares.
* `sf::CircleShape` is reduced to the two fields the kernel reads and writes:
  the centre (`getPosition`/`setPosition`, the origin being the centre) and
  the radius.  The colour is presentation only.
* `window.getSize()` is a pair of unsigned integers, converted to `float`
  where the code mixes it with floats.
* A `void` member function mutating `*this` (and `other`) becomes a function
  returning the new value(s).
-/

namespace Bro

/-- Counterpart of `sf::Vector2f`. -/
structure Vector2f (F : Type) where
  x : F
  y : F

namespace Vector2f

variable {F : Type} [LinearOrderedField F]

/-- Componentwise sum, `operator+`. -/
def add (u v : Vector2f F) : Vector2f F := ⟨u.x + v.x, u.y + v.y⟩

/-- Componentwise difference, `operator-`. -/
def sub (u v : Vector2f F) : Vector2f F := ⟨u.x - v.x, u.y - v.y⟩

/-- Vector times scalar, `operator*(Vector2f, float)`. -/
def scale (v : Vector2f F) (s : F) : Vector2f F := ⟨v.x * s, v.y * s⟩

/-- Scalar times vector, `operator*(float, Vector2f)`. -/
def lscale (s : F) (v : Vector2f F) : Vector2f F := ⟨v.x * s, v.y * s⟩

/-- Vector divided by scalar, `operator/`. -/
def div (v : Vector2f F) (s : F) : Vector2f F := ⟨v.x / s, v.y / s⟩

/-- Dot product, written out componentwise in the source. -/
def dot (u v : Vector2f F) : F := u.x * v.x + u.y * v.y

end Vector2f

/-- Counterpart of `struct Ball`: `position` and `radius` are the state of
`shape` that the kernel uses. -/
structure Ball (F : Type) where
  position : Vector2f F
  radius : F
  velocity : Vector2f F
  mass : F
  maxSpeed : F

/-- What it means for `sqrt` to be a square root on the non-negative
elements. -/
def IsSqrt {F : Type} [LinearOrderedField F] (sqrt : F → F) : Prop :=
  ∀ x : F, 0 ≤ x → 0 ≤ sqrt x ∧ sqrt x * sqrt x = x

section Kernel

variable {F : Type} [LinearOrderedField F]

/-- The constructor `Ball::Ball` (lines 13-19): the mass is the square of the
radius. -/
def Ball.new (radius : F) (position velocity : Vector2f F) (maxSpeed : F) : Ball F :=
  { position := position, radius := radius, velocity := velocity,
    mass := radius * radius, maxSpeed := maxSpeed }

/-- Lines 23-25 of `update`: gravity adds `0.2f` to `velocity.y`. -/
def applyGravity (velocity : Vector2f F) (gravityEnabled : Bool) : Vector2f F :=
  if gravityEnabled then ⟨velocity.x, velocity.y + 1 / 5⟩ else velocity

/-- Lines 28-31 of `update`: rescale the velocity when it is faster than
`maxSpeed`. -/
def limitSpeed (sqrt : F → F) (velocity : Vector2f F) (maxSpeed : F) : Vector2f F :=
  let currentSpeed := sqrt (velocity.x * velocity.x + velocity.y * velocity.y)
  if currentSpeed > maxSpeed then velocity.scale (maxSpeed / currentSpeed) else velocity

/-- The factor `(gravityEnabled ? 0.8f : 1.0f)` of lines 42, 46, 51, 55. -/
def bounceFactor (gravityEnabled : Bool) : F :=
  if gravityEnabled then 4 / 5 else 1

/-- One axis of the wall test, lines 40-47 (x) and 49-56 (y): from the tentative
coordinate `p`, the velocity component `v`, the radius `r` and the window
extent `size`, the new coordinate and velocity component. -/
def bounceAxis (p v r size k : F) : F × F :=
  if p - r < 0 then (r, |v| * k)
  else if p + r > size then (size - r, -|v| * k)
  else (p, v)

/-- The member `velocity` after lines 23-31 of `update`: gravity, then the
speed limit. -/
def clampedVelocity (sqrt : F → F) (ball : Ball F) (gravityEnabled : Bool) : Vector2f F :=
  limitSpeed sqrt (applyGravity ball.velocity gravityEnabled) ball.maxSpeed

/-- The variable `pos` after lines 33-34 of `update`. -/
def tentativePosition (sqrt : F → F) (ball : Ball F) (gravityEnabled : Bool) : Vector2f F :=
  ball.position.add (clampedVelocity sqrt ball gravityEnabled)

/-- The member function `Ball::update` (lines 21-59). -/
def update (sqrt : F → F) (ball : Ball F) (winSize : ℕ × ℕ) (gravityEnabled : Bool) :
    Ball F :=
  let velocity := clampedVelocity sqrt ball gravityEnabled
  let pos := tentativePosition sqrt ball gravityEnabled
  let r := ball.radius
  let alongX := bounceAxis pos.x velocity.x r (winSize.1 : F) (bounceFactor gravityEnabled)
  let alongY := bounceAxis pos.y velocity.y r (winSize.2 : F) (bounceFactor gravityEnabled)
  { ball with position := ⟨alongX.1, alongY.1⟩, velocity := ⟨alongX.2, alongY.2⟩ }

/-- The member function `Ball::checkCollision` (lines 61-66). -/
def checkCollision (self other : Ball F) : Bool :=
  let diff := self.position.sub other.position
  let distanceSquared := diff.x * diff.x + diff.y * diff.y
  let minDistance := self.radius + other.radius
  decide (distanceSquared ≤ minDistance * minDistance)

/-- Line 70 of `resolveCollision`: the length of `other - self` before the
guard against a zero divisor. -/
def rawDistance (sqrt : F → F) (self other : Ball F) : F :=
  let diff := other.position.sub self.position
  sqrt (diff.x * diff.x + diff.y * diff.y)

/-- The variable `diff` after lines 69-76. -/
def collisionDiff (sqrt : F → F) (self other : Ball F) : Vector2f F :=
  if rawDistance sqrt self other < 1 / 10000 then ⟨1, 0⟩
  else other.position.sub self.position

/-- The variable `distance` after lines 70-76. -/
def collisionDistance (sqrt : F → F) (self other : Ball F) : F :=
  if rawDistance sqrt self other < 1 / 10000 then 1 else rawDistance sqrt self other

/-- The variable `normal` of line 79. -/
def collisionNormal (sqrt : F → F) (self other : Ball F) : Vector2f F :=
  (collisionDiff sqrt self other).div (collisionDistance sqrt self other)

/-- The variable `velocityAlongNormal` of lines 90-91. -/
def velocityAlongNormal (sqrt : F → F) (self other : Ball F) : F :=
  let relativeVelocity := self.velocity.sub other.velocity
  let normal := collisionNormal sqrt self other
  relativeVelocity.x * normal.x + relativeVelocity.y * normal.y

/-- The variable `overlap` of line 108. -/
def collisionOverlap (sqrt : F → F) (self other : Ball F) : F :=
  self.radius + other.radius - collisionDistance sqrt self other

/-- Lines 107-113 of `resolveCollision`: push the two centres apart by half the
overlap each. -/
def separate (self other : Ball F) (normal : Vector2f F) (overlap : F) : Ball F × Ball F :=
  if overlap > 0 then
    let correction := (normal.scale overlap).scale (1 / 2)
    ({ self with position := self.position.sub correction },
     { other with position := other.position.add correction })
  else (self, other)

/-- The member function `Ball::resolveCollision` (lines 68-114); the result is
the pair (`*this`, `other`) after the call.  The `return` of line 94 leaves the
function before the positional correction. -/
def resolveCollision (sqrt : F → F) (self other : Ball F) (gravityEnabled : Bool) :
    Ball F × Ball F :=
  let normal := collisionNormal sqrt self other
  let overlap := collisionOverlap sqrt self other
  if gravityEnabled then
    let avgVelocity :=
      ((self.velocity.scale self.mass).add (other.velocity.scale other.mass)).div
        (self.mass + other.mass)
    separate { self with velocity := avgVelocity } { other with velocity := avgVelocity }
      normal overlap
  else
    let velocityAlongNormal := velocityAlongNormal sqrt self other
    if velocityAlongNormal > 0 then (self, other)
    else
      let restitution : F := 4 / 5
      let j := -(1 + restitution) * velocityAlongNormal
      let j := j / (1 / self.mass + 1 / other.mass)
      let impulse := Vector2f.lscale j normal
      separate { self with velocity := self.velocity.sub (impulse.div self.mass) }
        { other with velocity := other.velocity.add (impulse.div other.mass) }
        normal overlap

/-! The frame loop of `main`, lines 237-249.  `std::vector<Ball>` is a list; a
call of `resolveCollision` on `balls[i]` and `balls[j]` writes both results back
at their indices.  Next to the balls the collision pass keeps a ghost record
of the calls of `resolveCollision` it made, which no computation reads. -/

/-- Ghost record of one call `balls[i].resolveCollision(balls[j], ...)`: the two
indices and the two balls as they were when the call was made. -/
structure ResolveCall (F : Type) where
  i : ℕ
  j : ℕ
  self : Ball F
  other : Ball F

/-- Lines 240-242, the body of the inner loop, at the indices `i` and `j`. -/
def collidePair (sqrt : F → F) (gravityEnabled : Bool)
    (state : List (Ball F) × List (ResolveCall F)) (i j : ℕ) :
    List (Ball F) × List (ResolveCall F) :=
  match state.1[i]?, state.1[j]? with
  | some a, some b =>
    if checkCollision a b = true then
      ((state.1.set i (resolveCollision sqrt a b gravityEnabled).1).set j
          (resolveCollision sqrt a b gravityEnabled).2,
        state.2 ++ [⟨i, j, a, b⟩])
    else state
  | _, _ => state

/-- The index pairs `(i, j)` with `i < j < n` in the order in which the loops of
lines 238-239 visit them. -/
def indexPairs (n : ℕ) : List (ℕ × ℕ) :=
  (List.range n).flatMap fun i => (List.range' (i + 1) (n - (i + 1))).map fun j => (i, j)

/-- Lines 238-244: the collision pass, with the record of the calls made. -/
def collisionPass (sqrt : F → F) (gravityEnabled : Bool) (balls : List (Ball F)) :
    List (Ball F) × List (ResolveCall F) :=
  (indexPairs balls.length).foldl (fun state p => collidePair sqrt gravityEnabled state p.1 p.2)
    (balls, [])

/-- Lines 237-249: one frame of the simulation, the collision pass followed by
`update` on every ball. -/
def step (sqrt : F → F) (balls : List (Ball F)) (winSize : ℕ × ℕ) (gravityEnabled : Bool) :
    List (Ball F) :=
  (collisionPass sqrt gravityEnabled balls).1.map fun ball =>
    update sqrt ball winSize gravityEnabled

/-- The length of a velocity, the expression of line 28. -/
def speed (sqrt : F → F) (velocity : Vector2f F) : F :=
  sqrt (velocity.x * velocity.x + velocity.y * velocity.y)

/-! The same member functions with every division checked: `none` stands for a
division whose divisor is zero. -/

/-- Scalar division that fails on a zero divisor. -/
def divChecked (x y : F) : Option F :=
  if y = 0 then none else some (x / y)

/-- The `operator/` of a vector by a scalar, failing on a zero divisor. -/
def Vector2f.divChecked (v : Vector2f F) (s : F) : Option (Vector2f F) :=
  if s = 0 then none else some (v.div s)

/-- The member function `Ball::update` with the division of line 30 checked. -/
def updateChecked (sqrt : F → F) (ball : Ball F) (winSize : ℕ × ℕ) (gravityEnabled : Bool) :
    Option (Ball F) := do
  let velocity := applyGravity ball.velocity gravityEnabled
  let currentSpeed := sqrt (velocity.x * velocity.x + velocity.y * velocity.y)
  let velocity ←
    if currentSpeed > ball.maxSpeed then
      (divChecked ball.maxSpeed currentSpeed).map fun ratio => velocity.scale ratio
    else some velocity
  let pos := ball.position.add velocity
  let r := ball.radius
  let alongX := bounceAxis pos.x velocity.x r (winSize.1 : F) (bounceFactor gravityEnabled)
  let alongY := bounceAxis pos.y velocity.y r (winSize.2 : F) (bounceFactor gravityEnabled)
  pure { ball with position := ⟨alongX.1, alongY.1⟩, velocity := ⟨alongX.2, alongY.2⟩ }

/-- The member function `Ball::resolveCollision` with the divisions of lines 79,
84, 99, 103 and 104 checked. -/
def resolveCollisionChecked (sqrt : F → F) (self other : Ball F) (gravityEnabled : Bool) :
    Option (Ball F × Ball F) := do
  let normal ← (collisionDiff sqrt self other).divChecked (collisionDistance sqrt self other)
  let overlap := collisionOverlap sqrt self other
  if gravityEnabled then
    let avgVelocity ←
      ((self.velocity.scale self.mass).add (other.velocity.scale other.mass)).divChecked
        (self.mass + other.mass)
    pure (separate { self with velocity := avgVelocity } { other with velocity := avgVelocity }
      normal overlap)
  else
    let relativeVelocity := self.velocity.sub other.velocity
    let velocityAlongNormal := relativeVelocity.x * normal.x + relativeVelocity.y * normal.y
    if velocityAlongNormal > 0 then pure (self, other)
    else
      let restitution : F := 4 / 5
      let j := -(1 + restitution) * velocityAlongNormal
      let inverseSelf ← divChecked 1 self.mass
      let inverseOther ← divChecked 1 other.mass
      let j ← divChecked j (inverseSelf + inverseOther)
      let impulse := Vector2f.lscale j normal
      let changeSelf ← impulse.divChecked self.mass
      let changeOther ← impulse.divChecked other.mass
      pure (separate { self with velocity := self.velocity.sub changeSelf }
        { other with velocity := other.velocity.add changeOther } normal overlap)

/-- The invariant of a ball that the constructor establishes for a positive
radius and a positive speed cap. -/
def BodyInv (ball : Ball F) : Prop :=
  0 < ball.radius ∧ ball.mass = ball.radius * ball.radius ∧ 0 < ball.maxSpeed

/-! Sample balls, built with the constructor, at which the theorems below are
instantiated. -/

/-- A ball of radius 2 (mass 4) at the origin moving right at speed 2. -/
def heavyBall (F : Type) [LinearOrderedField F] : Ball F := Ball.new 2 ⟨0, 0⟩ ⟨2, 0⟩ 7

/-- A ball of radius 1 (mass 1) centred at `(x, 0)` moving left at speed 2. -/
def lightBall (F : Type) [LinearOrderedField F] (x : F) : Ball F := Ball.new 1 ⟨x, 0⟩ ⟨-2, 0⟩ 5

/-- A ball of radius 1 (mass 1) centred at `(x, 0)` with velocity `(v, 0)`. -/
def unitBall (F : Type) [LinearOrderedField F] (x v : F) : Ball F := Ball.new 1 ⟨x, 0⟩ ⟨v, 0⟩ 7

end Kernel

/-! ## Square roots -/

section SqrtLemmas

variable {F : Type} [LinearOrderedField F]

lemma IsSqrt.nonneg {sqrt : F → F} (hs : IsSqrt sqrt) {x : F} (hx : 0 ≤ x) : 0 ≤ sqrt x :=
  (hs x hx).1

lemma IsSqrt.mul_self {sqrt : F → F} (hs : IsSqrt sqrt) {x : F} (hx : 0 ≤ x) :
    sqrt x * sqrt x = x :=
  (hs x hx).2

/-- A non-negative number whose square is `x` is the root of `x`. -/
lemma IsSqrt.eq_of_mul_self {sqrt : F → F} (hs : IsSqrt sqrt) {x s : F} (h0 : 0 ≤ s)
    (hx : s * s = x) : sqrt x = s := by
  have hx0 : 0 ≤ x := hx ▸ mul_self_nonneg s
  have h1 := hs.mul_self hx0
  have h2 := hs.nonneg hx0
  nlinarith [mul_self_nonneg (sqrt x - s), mul_nonneg h2 h0]

/-- The root is below every non-negative bound whose square is above the
argument. -/
lemma IsSqrt.le_of_le_mul_self {sqrt : F → F} (hs : IsSqrt sqrt) {x m : F} (hx : 0 ≤ x)
    (hm : 0 ≤ m) (h : x ≤ m * m) : sqrt x ≤ m := by
  by_contra hlt
  push_neg at hlt
  have h1 := hs.mul_self hx
  have h2 : m * m < sqrt x * sqrt x := mul_self_lt_mul_self hm hlt
  linarith

/-- The sum of two squares, the only kind of argument the kernel passes to
`std::sqrt`, is never negative. -/
lemma sumSq_nonneg (p q : F) : 0 ≤ p * p + q * q :=
  add_nonneg (mul_self_nonneg p) (mul_self_nonneg q)

/-- The real square root is a square root in the sense of `IsSqrt`. -/
lemma isSqrt_real : IsSqrt Real.sqrt := fun x hx =>
  ⟨Real.sqrt_nonneg x, Real.mul_self_sqrt hx⟩

end SqrtLemmas

/-! ## Evaluation lemmas for the kernel -/

section KernelLemmas

variable {F : Type} [LinearOrderedField F]

lemma separate_velocity (a b : Ball F) (n : Vector2f F) (o : F) :
    (separate a b n o).1.velocity = a.velocity ∧ (separate a b n o).2.velocity = b.velocity := by
  unfold separate
  split_ifs <;> exact ⟨rfl, rfl⟩

lemma separate_mass (a b : Ball F) (n : Vector2f F) (o : F) :
    (separate a b n o).1.mass = a.mass ∧ (separate a b n o).2.mass = b.mass := by
  unfold separate
  split_ifs <;> exact ⟨rfl, rfl⟩

lemma separate_radius (a b : Ball F) (n : Vector2f F) (o : F) :
    (separate a b n o).1.radius = a.radius ∧ (separate a b n o).2.radius = b.radius := by
  unfold separate
  split_ifs <;> exact ⟨rfl, rfl⟩

/-- With gravity on, `resolveCollision` is the averaging of the velocities
followed by the positional correction. -/
lemma resolveCollision_gravity (sqrt : F → F) (a b : Ball F) :
    resolveCollision sqrt a b true =
      separate
        { a with velocity :=
            ((a.velocity.scale a.mass).add (b.velocity.scale b.mass)).div (a.mass + b.mass) }
        { b with velocity :=
            ((a.velocity.scale a.mass).add (b.velocity.scale b.mass)).div (a.mass + b.mass) }
        (collisionNormal sqrt a b) (collisionOverlap sqrt a b) := by
  simp [resolveCollision]

/-- With gravity off and `velocityAlongNormal > 0`, `resolveCollision` returns
at line 94 with both balls as they were. -/
lemma resolveCollision_skip (sqrt : F → F) (a b : Ball F)
    (h : 0 < velocityAlongNormal sqrt a b) : resolveCollision sqrt a b false = (a, b) := by
  simp [resolveCollision, h]

/-- With gravity off and `velocityAlongNormal ≤ 0`, `resolveCollision` applies
the impulse and then the positional correction. -/
lemma resolveCollision_impulse (sqrt : F → F) (a b : Ball F)
    (h : velocityAlongNormal sqrt a b ≤ 0) :
    resolveCollision sqrt a b false =
      separate
        { a with velocity := (Vector2f.sub a.velocity
            (Vector2f.div (Vector2f.lscale
              (-(1 + 4 / 5) * velocityAlongNormal sqrt a b / (1 / a.mass + 1 / b.mass))
              (collisionNormal sqrt a b)) a.mass)) }
        { b with velocity := (Vector2f.add b.velocity
            (Vector2f.div (Vector2f.lscale
              (-(1 + 4 / 5) * velocityAlongNormal sqrt a b / (1 / a.mass + 1 / b.mass))
              (collisionNormal sqrt a b)) b.mass)) }
        (collisionNormal sqrt a b) (collisionOverlap sqrt a b) := by
  simp [resolveCollision, not_lt.mpr h]

/-- When the centres are at least `0.0001` apart the guard of lines 73-76 does
not fire. -/
lemma collision_nondegenerate (sqrt : F → F) (a b : Ball F)
    (h : 1 / 10000 ≤ rawDistance sqrt a b) :
    collisionDistance sqrt a b = rawDistance sqrt a b ∧
      collisionDiff sqrt a b = b.position.sub a.position := by
  simp only [collisionDistance, collisionDiff, if_neg (not_lt.mpr h), and_self]

/-- When the centres are less than `0.0001` apart the guard of lines 73-76
fires: the normal is `(1, 0)` and the distance is `1`. -/
lemma collision_degenerate (sqrt : F → F) (a b : Ball F)
    (h : rawDistance sqrt a b < 1 / 10000) :
    collisionDistance sqrt a b = 1 ∧ (collisionNormal sqrt a b).x = 1 ∧
      (collisionNormal sqrt a b).y = 0 := by
  simp only [collisionNormal, collisionDistance, collisionDiff, if_pos h, Vector2f.div,
    div_one, zero_div, and_self]

/-- The square of `rawDistance` is the squared length of `other - self`. -/
lemma rawDistance_mul_self {sqrt : F → F} (hs : IsSqrt sqrt) (a b : Ball F) :
    rawDistance sqrt a b * rawDistance sqrt a b =
      (b.position.x - a.position.x) * (b.position.x - a.position.x) +
        (b.position.y - a.position.y) * (b.position.y - a.position.y) :=
  hs.mul_self (sumSq_nonneg _ _)

/-- The collision normal has length one, in the degenerate case too. -/
lemma collisionNormal_unit {sqrt : F → F} (hs : IsSqrt sqrt) (a b : Ball F) :
    (collisionNormal sqrt a b).x * (collisionNormal sqrt a b).x +
      (collisionNormal sqrt a b).y * (collisionNormal sqrt a b).y = 1 := by
  rcases lt_or_le (rawDistance sqrt a b) (1 / 10000) with h | h
  · obtain ⟨_, hx, hy⟩ := collision_degenerate sqrt a b h
    rw [hx, hy]
    norm_num
  · obtain ⟨hd, hv⟩ := collision_nondegenerate sqrt a b h
    have hpos : 0 < rawDistance sqrt a b := lt_of_lt_of_le (by norm_num) h
    have hsq := rawDistance_mul_self hs a b
    simp only [collisionNormal, hd, hv, Vector2f.div, Vector2f.sub]
    rw [div_mul_div_comm, div_mul_div_comm, ← add_div, ← hsq]
    exact div_self (ne_of_gt (mul_pos hpos hpos))

/-- What the impulse of lines 97-104 does to the relative velocity along the
normal: for positive masses it multiplies it by `1 + 1.8 = 2.8`. -/
lemma resolveCollision_impulse_along_normal {sqrt : F → F} (hs : IsSqrt sqrt) (a b : Ball F)
    (ha : 0 < a.mass) (hb : 0 < b.mass) (h : velocityAlongNormal sqrt a b ≤ 0) :
    ((resolveCollision sqrt a b false).1.velocity.sub
        (resolveCollision sqrt a b false).2.velocity).dot (collisionNormal sqrt a b) =
      14 / 5 * velocityAlongNormal sqrt a b := by
  have hu := collisionNormal_unit hs a b
  have ha0 : a.mass ≠ 0 := ne_of_gt ha
  have hb0 : b.mass ≠ 0 := ne_of_gt hb
  have hab : a.mass + b.mass ≠ 0 := ne_of_gt (add_pos ha hb)
  rw [resolveCollision_impulse sqrt a b h]
  simp only [(separate_velocity _ _ _ _).1, (separate_velocity _ _ _ _).2, Vector2f.div,
    Vector2f.add, Vector2f.sub, Vector2f.lscale, Vector2f.dot]
  have hv : velocityAlongNormal sqrt a b =
      (a.velocity.x - b.velocity.x) * (collisionNormal sqrt a b).x +
        (a.velocity.y - b.velocity.y) * (collisionNormal sqrt a b).y := rfl
  generalize velocityAlongNormal sqrt a b = w at hv ⊢
  generalize collisionNormal sqrt a b = n at hu hv ⊢
  have e : (a.velocity.x - n.x * (-(1 + 4 / 5) * w / (1 / a.mass + 1 / b.mass)) / a.mass -
        (b.velocity.x + n.x * (-(1 + 4 / 5) * w / (1 / a.mass + 1 / b.mass)) / b.mass)) * n.x +
      (a.velocity.y - n.y * (-(1 + 4 / 5) * w / (1 / a.mass + 1 / b.mass)) / a.mass -
        (b.velocity.y + n.y * (-(1 + 4 / 5) * w / (1 / a.mass + 1 / b.mass)) / b.mass)) * n.y =
      ((a.velocity.x - b.velocity.x) * n.x + (a.velocity.y - b.velocity.y) * n.y) +
        9 / 5 * w * (n.x * n.x + n.y * n.y) := by
    field_simp
    ring
  rw [e, hu, ← hv]
  ring

lemma separate_position_of_pos (a b : Ball F) (n : Vector2f F) (o : F) (h : 0 < o) :
    (separate a b n o).1.position = a.position.sub ((n.scale o).scale (1 / 2)) ∧
      (separate a b n o).2.position = b.position.add ((n.scale o).scale (1 / 2)) := by
  simp only [separate, if_pos (show o > 0 from h), and_self]

lemma separate_position_of_not_pos (a b : Ball F) (n : Vector2f F) (o : F) (h : ¬ 0 < o) :
    (separate a b n o).1.position = a.position ∧ (separate a b n o).2.position = b.position := by
  simp only [separate, if_neg (show ¬ o > 0 from h), and_self]

/-- Outside the branch that returns at line 94, the positions after
`resolveCollision` are those that the positional correction produces. -/
lemma resolveCollision_position (sqrt : F → F) (a b : Ball F) (g : Bool)
    (hbranch : g = true ∨ velocityAlongNormal sqrt a b ≤ 0) :
    (resolveCollision sqrt a b g).1.position =
        (separate a b (collisionNormal sqrt a b) (collisionOverlap sqrt a b)).1.position ∧
      (resolveCollision sqrt a b g).2.position =
        (separate a b (collisionNormal sqrt a b) (collisionOverlap sqrt a b)).2.position := by
  have hsep : ∀ (a1 a2 b1 b2 : Ball F) (n : Vector2f F) (o : F),
      a1.position = a2.position → b1.position = b2.position →
      (separate a1 b1 n o).1.position = (separate a2 b2 n o).1.position ∧
        (separate a1 b1 n o).2.position = (separate a2 b2 n o).2.position := by
    intro a1 a2 b1 b2 n o h1 h2
    unfold separate
    split_ifs
    · simp only [h1, h2, and_self]
    · exact ⟨h1, h2⟩
  cases g with
  | true =>
    rw [resolveCollision_gravity]
    exact hsep _ _ _ _ _ _ rfl rfl
  | false =>
    have h : velocityAlongNormal sqrt a b ≤ 0 := by
      rcases hbranch with h | h
      · exact absurd h (by decide)
      · exact h
    rw [resolveCollision_impulse sqrt a b h]
    exact hsep _ _ _ _ _ _ rfl rfl

/-- `resolveCollision` never changes a radius. -/
lemma resolveCollision_radius (sqrt : F → F) (a b : Ball F) (g : Bool) :
    (resolveCollision sqrt a b g).1.radius = a.radius ∧
      (resolveCollision sqrt a b g).2.radius = b.radius := by
  cases g with
  | true =>
    rw [resolveCollision_gravity]
    exact separate_radius _ _ _ _
  | false =>
    rcases lt_or_le 0 (velocityAlongNormal sqrt a b) with h | h
    · rw [resolveCollision_skip sqrt a b h]
      exact ⟨rfl, rfl⟩
    · rw [resolveCollision_impulse sqrt a b h]
      exact separate_radius _ _ _ _

/-- For centres at least `0.0001` apart, the positional correction with a
positive overlap leaves the two balls exactly tangent. -/
lemma separate_rawDistance {sqrt : F → F} (hs : IsSqrt sqrt) (a b : Ball F)
    (hnd : 1 / 10000 ≤ rawDistance sqrt a b) (ho : 0 < collisionOverlap sqrt a b) :
    rawDistance sqrt
        (separate a b (collisionNormal sqrt a b) (collisionOverlap sqrt a b)).1
        (separate a b (collisionNormal sqrt a b) (collisionOverlap sqrt a b)).2 =
      a.radius + b.radius := by
  obtain ⟨hd, hv⟩ := collision_nondegenerate sqrt a b hnd
  have hpos : 0 < rawDistance sqrt a b := lt_of_lt_of_le (by norm_num) hnd
  have hsq := rawDistance_mul_self hs a b
  have hR : 0 ≤ a.radius + b.radius := by
    unfold collisionOverlap at ho
    rw [hd] at ho
    linarith
  obtain ⟨e1, e2⟩ := separate_position_of_pos a b (collisionNormal sqrt a b)
    (collisionOverlap sqrt a b) ho
  unfold rawDistance
  simp only [e1, e2]
  apply hs.eq_of_mul_self hR
  simp only [collisionNormal, collisionOverlap, hd, hv, Vector2f.div, Vector2f.sub, Vector2f.add,
    Vector2f.scale]
  generalize rawDistance sqrt a b = d at hpos hsq
  have hd0 : d ≠ 0 := ne_of_gt hpos
  have key : ∀ t : F, t + t / d * (a.radius + b.radius - d) * (1 / 2) -
      (-(t / d * (a.radius + b.radius - d) * (1 / 2))) = t * ((a.radius + b.radius) / d) := by
    intro t
    field_simp
    ring
  have ex : b.position.x + (b.position.x - a.position.x) / d * (a.radius + b.radius - d) * (1 / 2) -
      (a.position.x - (b.position.x - a.position.x) / d * (a.radius + b.radius - d) * (1 / 2)) =
      (b.position.x - a.position.x) * ((a.radius + b.radius) / d) := by
    rw [← key]; ring
  have ey : b.position.y + (b.position.y - a.position.y) / d * (a.radius + b.radius - d) * (1 / 2) -
      (a.position.y - (b.position.y - a.position.y) / d * (a.radius + b.radius - d) * (1 / 2)) =
      (b.position.y - a.position.y) * ((a.radius + b.radius) / d) := by
    rw [← key]; ring
  rw [ex, ey]
  have : (b.position.x - a.position.x) * ((a.radius + b.radius) / d) *
        ((b.position.x - a.position.x) * ((a.radius + b.radius) / d)) +
      (b.position.y - a.position.y) * ((a.radius + b.radius) / d) *
        ((b.position.y - a.position.y) * ((a.radius + b.radius) / d)) =
      ((b.position.x - a.position.x) * (b.position.x - a.position.x) +
        (b.position.y - a.position.y) * (b.position.y - a.position.y)) *
        ((a.radius + b.radius) * (a.radius + b.radius)) / (d * d) := by
    field_simp
    ring
  rw [this, ← hsq]
  field_simp

/-- The sign of the code's `velocityAlongNormal`: for centres at least `0.0001`
apart it is positive exactly when the pair is approaching, that is when
`(other.velocity - self.velocity) · (other.position - self.position) < 0`.  So
the return of line 94 is taken by the approaching pairs and by no separating
one. -/
lemma velocityAlongNormal_pos_iff_approaching (sqrt : F → F) (a b : Ball F)
    (hnd : 1 / 10000 ≤ rawDistance sqrt a b) :
    0 < velocityAlongNormal sqrt a b ↔
      (b.velocity.sub a.velocity).dot (b.position.sub a.position) < 0 := by
  obtain ⟨hd, hv⟩ := collision_nondegenerate sqrt a b hnd
  have hpos : 0 < rawDistance sqrt a b := lt_of_lt_of_le (by norm_num) hnd
  have e : velocityAlongNormal sqrt a b =
      -((b.velocity.sub a.velocity).dot (b.position.sub a.position)) / rawDistance sqrt a b := by
    simp only [velocityAlongNormal, collisionNormal, hd, hv, Vector2f.div, Vector2f.sub,
      Vector2f.dot]
    field_simp
    ring
  rw [e, div_pos_iff_of_pos_right hpos, neg_pos]

/-- The centre distance only depends on the two positions. -/
lemma rawDistance_congr (sqrt : F → F) (a1 b1 a2 b2 : Ball F)
    (ha : a1.position = a2.position) (hb : b1.position = b2.position) :
    rawDistance sqrt a1 b1 = rawDistance sqrt a2 b2 := by
  simp only [rawDistance, ha, hb]

end KernelLemmas

/-! ## Evaluation at sample pairs over the reals -/

section Samples

/-- Two unit balls one apart on the x axis: the centre distance is 1. -/
lemma rawDistance_unitBall_one_zero (v w : ℝ) :
    rawDistance Real.sqrt (unitBall ℝ 1 v) (unitBall ℝ 0 w) = 1 := by
  norm_num [rawDistance, unitBall, Ball.new, Vector2f.sub]

lemma rawDistance_unitBall_zero_one (v w : ℝ) :
    rawDistance Real.sqrt (unitBall ℝ 0 v) (unitBall ℝ 1 w) = 1 := by
  norm_num [rawDistance, unitBall, Ball.new, Vector2f.sub]

/-- Two unit balls with the same centre: the centre distance is 0. -/
lemma rawDistance_unitBall_zero_zero (v w : ℝ) :
    rawDistance Real.sqrt (unitBall ℝ 0 v) (unitBall ℝ 0 w) = 0 := by
  norm_num [rawDistance, unitBall, Ball.new, Vector2f.sub]

lemma unitBall_radius (x v : ℝ) : (unitBall ℝ x v).radius = 1 := rfl

lemma unitBall_mass (x v : ℝ) : (unitBall ℝ x v).mass = 1 := by
  norm_num [unitBall, Ball.new]

/-- In each of the three sample placements the variable `distance` is 1 (for
coincident centres through the guard of lines 73-76), so the overlap is 1. -/
lemma collisionOverlap_unitBall_one_zero (v w : ℝ) :
    collisionOverlap Real.sqrt (unitBall ℝ 1 v) (unitBall ℝ 0 w) = 1 := by
  rw [collisionOverlap, collisionDistance, rawDistance_unitBall_one_zero, unitBall_radius,
    unitBall_radius]
  norm_num

lemma collisionOverlap_unitBall_zero_one (v w : ℝ) :
    collisionOverlap Real.sqrt (unitBall ℝ 0 v) (unitBall ℝ 1 w) = 1 := by
  rw [collisionOverlap, collisionDistance, rawDistance_unitBall_zero_one, unitBall_radius,
    unitBall_radius]
  norm_num

lemma collisionOverlap_unitBall_zero_zero (v w : ℝ) :
    collisionOverlap Real.sqrt (unitBall ℝ 0 v) (unitBall ℝ 0 w) = 1 := by
  rw [collisionOverlap, collisionDistance, rawDistance_unitBall_zero_zero, unitBall_radius,
    unitBall_radius]
  norm_num

lemma collisionNormal_unitBall_one_zero (v w : ℝ) :
    (collisionNormal Real.sqrt (unitBall ℝ 1 v) (unitBall ℝ 0 w)).x = -1 ∧
      (collisionNormal Real.sqrt (unitBall ℝ 1 v) (unitBall ℝ 0 w)).y = 0 := by
  rw [collisionNormal, collisionDiff, collisionDistance, rawDistance_unitBall_one_zero]
  norm_num [Vector2f.div, Vector2f.sub, unitBall, Ball.new]

lemma collisionNormal_unitBall_zero_one (v w : ℝ) :
    (collisionNormal Real.sqrt (unitBall ℝ 0 v) (unitBall ℝ 1 w)).x = 1 ∧
      (collisionNormal Real.sqrt (unitBall ℝ 0 v) (unitBall ℝ 1 w)).y = 0 := by
  rw [collisionNormal, collisionDiff, collisionDistance, rawDistance_unitBall_zero_one]
  norm_num [Vector2f.div, Vector2f.sub, unitBall, Ball.new]

lemma collisionNormal_unitBall_zero_zero (v w : ℝ) :
    (collisionNormal Real.sqrt (unitBall ℝ 0 v) (unitBall ℝ 0 w)).x = 1 ∧
      (collisionNormal Real.sqrt (unitBall ℝ 0 v) (unitBall ℝ 0 w)).y = 0 := by
  rw [collisionNormal, collisionDiff, collisionDistance, rawDistance_unitBall_zero_zero]
  norm_num [Vector2f.div]

/-- The ball at `x = 1` moving right and the ball at `x = 0` moving left: the
code's `velocityAlongNormal` is `-2`. -/
lemma velocityAlongNormal_apart :
    velocityAlongNormal Real.sqrt (unitBall ℝ 1 1) (unitBall ℝ 0 (-1)) = -2 := by
  norm_num [velocityAlongNormal, collisionNormal, collisionDiff, collisionDistance,
    rawDistance, unitBall, Ball.new, Vector2f.sub, Vector2f.div]

/-- The ball at `x = 0` moving left and the ball at `x = 1` moving right: the
code's `velocityAlongNormal` is `-2`. -/
lemma velocityAlongNormal_apart_swapped :
    velocityAlongNormal Real.sqrt (unitBall ℝ 0 (-1)) (unitBall ℝ 1 1) = -2 := by
  norm_num [velocityAlongNormal, collisionNormal, collisionDiff, collisionDistance,
    rawDistance, unitBall, Ball.new, Vector2f.sub, Vector2f.div]

/-- The ball at `x = 0` moving right and the ball at `x = 1` moving left (a
head-on approach): the code's `velocityAlongNormal` is `2`. -/
lemma velocityAlongNormal_head_on :
    velocityAlongNormal Real.sqrt (unitBall ℝ 0 1) (unitBall ℝ 1 (-1)) = 2 := by
  norm_num [velocityAlongNormal, collisionNormal, collisionDiff, collisionDistance,
    rawDistance, unitBall, Ball.new, Vector2f.sub, Vector2f.div]

lemma real_sqrt_twenty_five : Real.sqrt 25 = 5 := by
  rw [show (25 : ℝ) = 5 ^ 2 by norm_num]
  exact Real.sqrt_sq (by norm_num)

/-- A ball near the left wall moving left: with gravity on, its velocity after
the gravity and speed-limit steps is `(-3, 4)`, of length 5, below the cap 7. -/
lemma clampedVelocity_near_wall :
    (clampedVelocity Real.sqrt (Ball.new 15 ⟨10, 300⟩ ⟨-3, 19 / 5⟩ 7 : Ball ℝ) true).x = -3 := by
  norm_num [clampedVelocity, limitSpeed, applyGravity, Ball.new, real_sqrt_twenty_five]

end Samples

/-! ## Collision response (`resolveCollision`) -/

section Resolve

variable {F : Type} [LinearOrderedField F]

/-- C1 (evaluation of the code at the failing input): two unit balls of mass 1,
`a` at `(1, 0)` with velocity `(1, 0)` and `b` at `(0, 0)` with velocity
`(-1, 0)`, gravity off.  They overlap, their centres are 1 apart, and
`velocityAlongNormal = (a.velocity - b.velocity) · normal = -2`, so the impulse
is applied.  The velocities become `(14/5, 0)` and `(-14/5, 0)`: along the
normal the relative velocity is `-28/5 = 2.8 * (-2)`, not `-0.8 * (-2) = 8/5`. -/
theorem resolveCollision_impulse_at_sample :
    checkCollision (unitBall ℝ 1 1) (unitBall ℝ 0 (-1)) = true ∧
      (unitBall ℝ 1 1).mass = 1 ∧ (unitBall ℝ 0 (-1)).mass = 1 ∧
      1 / 10000 ≤ rawDistance Real.sqrt (unitBall ℝ 1 1) (unitBall ℝ 0 (-1)) ∧
      velocityAlongNormal Real.sqrt (unitBall ℝ 1 1) (unitBall ℝ 0 (-1)) = -2 ∧
      (resolveCollision Real.sqrt (unitBall ℝ 1 1) (unitBall ℝ 0 (-1)) false).1.velocity.x
        = 14 / 5 ∧
      (resolveCollision Real.sqrt (unitBall ℝ 1 1) (unitBall ℝ 0 (-1)) false).1.velocity.y
        = 0 ∧
      (resolveCollision Real.sqrt (unitBall ℝ 1 1) (unitBall ℝ 0 (-1)) false).2.velocity.x
        = -(14 / 5) ∧
      (resolveCollision Real.sqrt (unitBall ℝ 1 1) (unitBall ℝ 0 (-1)) false).2.velocity.y
        = 0 ∧
      ((resolveCollision Real.sqrt (unitBall ℝ 1 1) (unitBall ℝ 0 (-1)) false).1.velocity.sub
          (resolveCollision Real.sqrt (unitBall ℝ 1 1) (unitBall ℝ 0 (-1)) false).2.velocity).dot
          (collisionNormal Real.sqrt (unitBall ℝ 1 1) (unitBall ℝ 0 (-1))) = -(28 / 5) ∧
      ((resolveCollision Real.sqrt (unitBall ℝ 1 1) (unitBall ℝ 0 (-1)) false).1.velocity.sub
          (resolveCollision Real.sqrt (unitBall ℝ 1 1) (unitBall ℝ 0 (-1)) false).2.velocity).dot
          (collisionNormal Real.sqrt (unitBall ℝ 1 1) (unitBall ℝ 0 (-1))) ≠
        -(4 / 5) * velocityAlongNormal Real.sqrt (unitBall ℝ 1 1) (unitBall ℝ 0 (-1)) := by
  have hv := velocityAlongNormal_apart
  have hle : velocityAlongNormal Real.sqrt (unitBall ℝ 1 1) (unitBall ℝ 0 (-1)) ≤ 0 := by
    rw [hv]; norm_num
  have hm1 : (unitBall ℝ 1 1).mass = 1 := by norm_num [unitBall, Ball.new]
  have hm2 : (unitBall ℝ 0 (-1)).mass = 1 := by norm_num [unitBall, Ball.new]
  have hlaw := resolveCollision_impulse_along_normal isSqrt_real (unitBall ℝ 1 1)
    (unitBall ℝ 0 (-1)) (by rw [hm1]; norm_num) (by rw [hm2]; norm_num) hle
  refine ⟨?_, hm1, hm2, ?_, hv, ?_, ?_, ?_, ?_, ?_, ?_⟩
  · norm_num [checkCollision, unitBall, Ball.new, Vector2f.sub]
  · rw [rawDistance_unitBall_one_zero]; norm_num
  · rw [resolveCollision_impulse _ _ _ hle, (separate_velocity _ _ _ _).1, hv]
    norm_num [collisionNormal, collisionDiff, collisionDistance, rawDistance, unitBall,
      Ball.new, Vector2f.sub, Vector2f.div, Vector2f.lscale]
  · rw [resolveCollision_impulse _ _ _ hle, (separate_velocity _ _ _ _).1, hv]
    norm_num [collisionNormal, collisionDiff, collisionDistance, rawDistance, unitBall,
      Ball.new, Vector2f.sub, Vector2f.div, Vector2f.lscale]
  · rw [resolveCollision_impulse _ _ _ hle, (separate_velocity _ _ _ _).2, hv]
    norm_num [collisionNormal, collisionDiff, collisionDistance, rawDistance, unitBall,
      Ball.new, Vector2f.sub, Vector2f.div, Vector2f.add, Vector2f.lscale]
  · rw [resolveCollision_impulse _ _ _ hle, (separate_velocity _ _ _ _).2, hv]
    norm_num [collisionNormal, collisionDiff, collisionDistance, rawDistance, unitBall,
      Ball.new, Vector2f.sub, Vector2f.div, Vector2f.add, Vector2f.lscale]
  · rw [hlaw, hv]; norm_num
  · rw [hlaw, hv]; norm_num

/-- C2 (evaluation of the code at the failing input): a head-on pair in free
flight, `a` at `(0, 0)` with velocity `(1, 0)` and `b` at `(1, 0)` with velocity
`(-1, 0)`, both of radius 1.  The balls overlap, their centres are 1 apart and
they are approaching: `(b.velocity - a.velocity) · (b.position - a.position) = -2`.
The overlap is `1 > 0`, but the code's `velocityAlongNormal` is `2 > 0`, so
`resolveCollision` returns at line 94: neither centre is moved, although the
positional correction puts them at `-1/2` and `3/2`. -/
theorem resolveCollision_skip_no_correction :
    checkCollision (unitBall ℝ 0 1) (unitBall ℝ 1 (-1)) = true ∧
      1 / 10000 ≤ rawDistance Real.sqrt (unitBall ℝ 0 1) (unitBall ℝ 1 (-1)) ∧
      ((unitBall ℝ 1 (-1)).velocity.sub (unitBall ℝ 0 1).velocity).dot
          ((unitBall ℝ 1 (-1)).position.sub (unitBall ℝ 0 1).position) = -2 ∧
      0 < collisionOverlap Real.sqrt (unitBall ℝ 0 1) (unitBall ℝ 1 (-1)) ∧
      0 < velocityAlongNormal Real.sqrt (unitBall ℝ 0 1) (unitBall ℝ 1 (-1)) ∧
      (resolveCollision Real.sqrt (unitBall ℝ 0 1) (unitBall ℝ 1 (-1)) false).1.position.x = 0 ∧
      (resolveCollision Real.sqrt (unitBall ℝ 0 1) (unitBall ℝ 1 (-1)) false).2.position.x = 1 ∧
      (resolveCollision Real.sqrt (unitBall ℝ 0 1) (unitBall ℝ 1 (-1)) false).1.position.x ≠
        (unitBall ℝ 0 1).position.x -
          (collisionNormal Real.sqrt (unitBall ℝ 0 1) (unitBall ℝ 1 (-1))).x *
            collisionOverlap Real.sqrt (unitBall ℝ 0 1) (unitBall ℝ 1 (-1)) * (1 / 2) ∧
      (resolveCollision Real.sqrt (unitBall ℝ 0 1) (unitBall ℝ 1 (-1)) false).2.position.x ≠
        (unitBall ℝ 1 (-1)).position.x +
          (collisionNormal Real.sqrt (unitBall ℝ 0 1) (unitBall ℝ 1 (-1))).x *
            collisionOverlap Real.sqrt (unitBall ℝ 0 1) (unitBall ℝ 1 (-1)) * (1 / 2) := by
  have hv := velocityAlongNormal_head_on
  have hpos : 0 < velocityAlongNormal Real.sqrt (unitBall ℝ 0 1) (unitBall ℝ 1 (-1)) := by
    rw [hv]; norm_num
  have ho := collisionOverlap_unitBall_zero_one 1 (-1)
  have hn := (collisionNormal_unitBall_zero_one 1 (-1)).1
  rw [resolveCollision_skip _ _ _ hpos, ho, hn, rawDistance_unitBall_zero_one]
  refine ⟨?_, by norm_num, ?_, by norm_num, hpos, ?_, ?_, ?_, ?_⟩
  · norm_num [checkCollision, unitBall, Ball.new, Vector2f.sub]
  · norm_num [Vector2f.dot, Vector2f.sub, unitBall, Ball.new]
  all_goals norm_num [unitBall, Ball.new]

/-- Outside the return of line 94, that is with gravity on, or with gravity off
and `velocityAlongNormal ≤ 0`, a positive
`overlap = a.radius + b.radius - distance` moves `a.position` by
`-normal * overlap * 0.5` and `b.position` by `+normal * overlap * 0.5`. -/
lemma resolveCollision_position_of_overlap (sqrt : F → F) (a b : Ball F)
    (gravityEnabled : Bool) (ho : 0 < collisionOverlap sqrt a b)
    (hbranch : gravityEnabled = true ∨ velocityAlongNormal sqrt a b ≤ 0) :
    (resolveCollision sqrt a b gravityEnabled).1.position.x =
        a.position.x - (collisionNormal sqrt a b).x * collisionOverlap sqrt a b * (1 / 2) ∧
      (resolveCollision sqrt a b gravityEnabled).1.position.y =
        a.position.y - (collisionNormal sqrt a b).y * collisionOverlap sqrt a b * (1 / 2) ∧
      (resolveCollision sqrt a b gravityEnabled).2.position.x =
        b.position.x + (collisionNormal sqrt a b).x * collisionOverlap sqrt a b * (1 / 2) ∧
      (resolveCollision sqrt a b gravityEnabled).2.position.y =
        b.position.y + (collisionNormal sqrt a b).y * collisionOverlap sqrt a b * (1 / 2) := by
  obtain ⟨h1, h2⟩ := resolveCollision_position sqrt a b gravityEnabled hbranch
  obtain ⟨e1, e2⟩ := separate_position_of_pos a b (collisionNormal sqrt a b)
    (collisionOverlap sqrt a b) ho
  rw [h1, h2, e1, e2]
  exact ⟨rfl, rfl, rfl, rfl⟩

/-- C3 (counterexample): two unit balls with the same centre, gravity on.  They
overlap and have positive radii, yet after `resolveCollision` the centres are
at `(-1/2, 0)` and `(1/2, 0)`: the distance is `1`, less than the radius sum
`2`. -/
theorem resolveCollision_coincident_still_overlapping :
    checkCollision (unitBall ℝ 0 1) (unitBall ℝ 0 (-1)) = true ∧
      0 < (unitBall ℝ 0 1).radius ∧ 0 < (unitBall ℝ 0 (-1)).radius ∧
      (resolveCollision Real.sqrt (unitBall ℝ 0 1) (unitBall ℝ 0 (-1)) true).1.position.x
        = -(1 / 2) ∧
      (resolveCollision Real.sqrt (unitBall ℝ 0 1) (unitBall ℝ 0 (-1)) true).2.position.x
        = 1 / 2 ∧
      rawDistance Real.sqrt
          (resolveCollision Real.sqrt (unitBall ℝ 0 1) (unitBall ℝ 0 (-1)) true).1
          (resolveCollision Real.sqrt (unitBall ℝ 0 1) (unitBall ℝ 0 (-1)) true).2 = 1 ∧
      rawDistance Real.sqrt
          (resolveCollision Real.sqrt (unitBall ℝ 0 1) (unitBall ℝ 0 (-1)) true).1
          (resolveCollision Real.sqrt (unitBall ℝ 0 1) (unitBall ℝ 0 (-1)) true).2 <
        (resolveCollision Real.sqrt (unitBall ℝ 0 1) (unitBall ℝ 0 (-1)) true).1.radius +
          (resolveCollision Real.sqrt (unitBall ℝ 0 1) (unitBall ℝ 0 (-1)) true).2.radius := by
  have ho := collisionOverlap_unitBall_zero_zero 1 (-1)
  obtain ⟨hnx, hny⟩ := collisionNormal_unitBall_zero_zero 1 (-1)
  obtain ⟨h1, h2⟩ := resolveCollision_position Real.sqrt (unitBall ℝ 0 1) (unitBall ℝ 0 (-1))
    true (Or.inl rfl)
  obtain ⟨e1, e2⟩ := separate_position_of_pos (unitBall ℝ 0 1) (unitBall ℝ 0 (-1))
    (collisionNormal Real.sqrt (unitBall ℝ 0 1) (unitBall ℝ 0 (-1)))
    (collisionOverlap Real.sqrt (unitBall ℝ 0 1) (unitBall ℝ 0 (-1))) (by rw [ho]; norm_num)
  obtain ⟨r1, r2⟩ := resolveCollision_radius Real.sqrt (unitBall ℝ 0 1) (unitBall ℝ 0 (-1)) true
  have hd : rawDistance Real.sqrt
      (resolveCollision Real.sqrt (unitBall ℝ 0 1) (unitBall ℝ 0 (-1)) true).1
      (resolveCollision Real.sqrt (unitBall ℝ 0 1) (unitBall ℝ 0 (-1)) true).2 = 1 := by
    unfold rawDistance
    rw [h1, h2, e1, e2]
    simp only [Vector2f.sub, Vector2f.add, Vector2f.scale, hnx, hny, ho]
    norm_num [unitBall, Ball.new]
  refine ⟨?_, ?_, ?_, ?_, ?_, hd, ?_⟩
  · norm_num [checkCollision, unitBall, Ball.new, Vector2f.sub]
  · rw [unitBall_radius]; norm_num
  · rw [unitBall_radius]; norm_num
  · rw [h1, e1]
    simp only [Vector2f.sub, Vector2f.scale, hnx, ho]
    norm_num [unitBall, Ball.new]
  · rw [h2, e2]
    simp only [Vector2f.add, Vector2f.scale, hnx, ho]
    norm_num [unitBall, Ball.new]
  · rw [hd, r1, r2, unitBall_radius, unitBall_radius]
    norm_num

/-- C3 (amended): for two balls whose centres are at least `0.0001` apart, when
`resolveCollision` does not return at line 94 (gravity on, or gravity off with
`velocityAlongNormal ≤ 0`), the distance between the centres after the call is
at least the sum of the radii, with an exact square root. -/
theorem resolveCollision_no_overlap (sqrt : F → F) (hs : IsSqrt sqrt) (a b : Ball F)
    (gravityEnabled : Bool) (hnd : 1 / 10000 ≤ rawDistance sqrt a b)
    (hbranch : gravityEnabled = true ∨ velocityAlongNormal sqrt a b ≤ 0) :
    (resolveCollision sqrt a b gravityEnabled).1.radius +
        (resolveCollision sqrt a b gravityEnabled).2.radius ≤
      rawDistance sqrt (resolveCollision sqrt a b gravityEnabled).1
        (resolveCollision sqrt a b gravityEnabled).2 := by
  obtain ⟨h1, h2⟩ := resolveCollision_position sqrt a b gravityEnabled hbranch
  obtain ⟨r1, r2⟩ := resolveCollision_radius sqrt a b gravityEnabled
  rw [r1, r2, rawDistance_congr sqrt _ _ _ _ h1 h2]
  rcases lt_or_le 0 (collisionOverlap sqrt a b) with ho | ho
  · rw [separate_rawDistance hs a b hnd ho]
  · obtain ⟨e1, e2⟩ := separate_position_of_not_pos a b (collisionNormal sqrt a b)
      (collisionOverlap sqrt a b) (not_lt.mpr ho)
    rw [rawDistance_congr sqrt _ _ a b e1 e2]
    unfold collisionOverlap at ho
    rw [(collision_nondegenerate sqrt a b hnd).1] at ho
    linarith

/-- Witness for C3 (amended): the pair of C1 in free flight, where the impulse
branch is taken; the centres end at `3/2` and `-1/2`. -/
theorem resolveCollision_no_overlap_witness :
    (resolveCollision Real.sqrt (unitBall ℝ 1 1) (unitBall ℝ 0 (-1)) false).1.radius +
        (resolveCollision Real.sqrt (unitBall ℝ 1 1) (unitBall ℝ 0 (-1)) false).2.radius ≤
      rawDistance Real.sqrt
        (resolveCollision Real.sqrt (unitBall ℝ 1 1) (unitBall ℝ 0 (-1)) false).1
        (resolveCollision Real.sqrt (unitBall ℝ 1 1) (unitBall ℝ 0 (-1)) false).2 :=
  resolveCollision_no_overlap Real.sqrt isSqrt_real (unitBall ℝ 1 1) (unitBall ℝ 0 (-1)) false
    (by rw [rawDistance_unitBall_one_zero]; norm_num)
    (Or.inr (by rw [velocityAlongNormal_apart]; norm_num))

/-- C4 (evaluation of the code at the failing input): two unit balls of mass 1,
`a` at `(0, 0)` with velocity `(-1, 0)` and `b` at `(1, 0)` with velocity
`(1, 0)`, gravity off.  They overlap, their centres are 1 apart and they are
moving apart: `(b.velocity - a.velocity) · (b.position - a.position) = 2 > 0`.
`resolveCollision` nevertheless changes both velocities, to `(-14/5, 0)` and
`(14/5, 0)`. -/
theorem resolveCollision_changes_separating_pair :
    checkCollision (unitBall ℝ 0 (-1)) (unitBall ℝ 1 1) = true ∧
      1 / 10000 ≤ rawDistance Real.sqrt (unitBall ℝ 0 (-1)) (unitBall ℝ 1 1) ∧
      0 < ((unitBall ℝ 1 1).velocity.sub (unitBall ℝ 0 (-1)).velocity).dot
        ((unitBall ℝ 1 1).position.sub (unitBall ℝ 0 (-1)).position) ∧
      (resolveCollision Real.sqrt (unitBall ℝ 0 (-1)) (unitBall ℝ 1 1) false).1.velocity.x
        = -(14 / 5) ∧
      (resolveCollision Real.sqrt (unitBall ℝ 0 (-1)) (unitBall ℝ 1 1) false).2.velocity.x
        = 14 / 5 ∧
      (resolveCollision Real.sqrt (unitBall ℝ 0 (-1)) (unitBall ℝ 1 1) false).1.velocity.x ≠
        (unitBall ℝ 0 (-1)).velocity.x ∧
      (resolveCollision Real.sqrt (unitBall ℝ 0 (-1)) (unitBall ℝ 1 1) false).2.velocity.x ≠
        (unitBall ℝ 1 1).velocity.x := by
  have hv := velocityAlongNormal_apart_swapped
  have hle : velocityAlongNormal Real.sqrt (unitBall ℝ 0 (-1)) (unitBall ℝ 1 1) ≤ 0 := by
    rw [hv]; norm_num
  have hnx := (collisionNormal_unitBall_zero_one (-1) 1).1
  have ha : (resolveCollision Real.sqrt (unitBall ℝ 0 (-1)) (unitBall ℝ 1 1)
      false).1.velocity.x = -(14 / 5) := by
    rw [resolveCollision_impulse _ _ _ hle, (separate_velocity _ _ _ _).1, hv]
    simp only [Vector2f.sub, Vector2f.div, Vector2f.lscale, hnx, unitBall_mass]
    norm_num [unitBall, Ball.new]
  have hb : (resolveCollision Real.sqrt (unitBall ℝ 0 (-1)) (unitBall ℝ 1 1)
      false).2.velocity.x = 14 / 5 := by
    rw [resolveCollision_impulse _ _ _ hle, (separate_velocity _ _ _ _).2, hv]
    simp only [Vector2f.add, Vector2f.div, Vector2f.lscale, hnx, unitBall_mass]
    norm_num [unitBall, Ball.new]
  refine ⟨?_, ?_, ?_, ha, hb, ?_, ?_⟩
  · norm_num [checkCollision, unitBall, Ball.new, Vector2f.sub]
  · rw [rawDistance_unitBall_zero_one]; norm_num
  · norm_num [Vector2f.dot, Vector2f.sub, unitBall, Ball.new]
  · rw [ha]; norm_num [unitBall, Ball.new]
  · rw [hb]; norm_num [unitBall, Ball.new]

/-- C5: `resolveCollision` conserves total linear momentum.  For any two balls
with positive masses, whatever their positions (coincident centres included)
and whichever the mode, `mass * velocity` summed over the two balls is the same
vector after the call as before it. -/
theorem resolveCollision_conserves_momentum (sqrt : F → F) (a b : Ball F)
    (gravityEnabled : Bool) (ha : 0 < a.mass) (hb : 0 < b.mass) :
    (resolveCollision sqrt a b gravityEnabled).1.mass *
          (resolveCollision sqrt a b gravityEnabled).1.velocity.x +
        (resolveCollision sqrt a b gravityEnabled).2.mass *
          (resolveCollision sqrt a b gravityEnabled).2.velocity.x =
        a.mass * a.velocity.x + b.mass * b.velocity.x ∧
      (resolveCollision sqrt a b gravityEnabled).1.mass *
          (resolveCollision sqrt a b gravityEnabled).1.velocity.y +
        (resolveCollision sqrt a b gravityEnabled).2.mass *
          (resolveCollision sqrt a b gravityEnabled).2.velocity.y =
        a.mass * a.velocity.y + b.mass * b.velocity.y := by
  have hab : a.mass + b.mass ≠ 0 := ne_of_gt (add_pos ha hb)
  have ha0 : a.mass ≠ 0 := ne_of_gt ha
  have hb0 : b.mass ≠ 0 := ne_of_gt hb
  cases gravityEnabled with
  | true =>
    rw [resolveCollision_gravity]
    simp only [(separate_velocity _ _ _ _).1, (separate_velocity _ _ _ _).2,
      (separate_mass _ _ _ _).1, (separate_mass _ _ _ _).2, Vector2f.div, Vector2f.add,
      Vector2f.scale]
    constructor <;> field_simp <;> ring
  | false =>
    rcases lt_or_le 0 (velocityAlongNormal sqrt a b) with h | h
    · rw [resolveCollision_skip sqrt a b h]
      exact ⟨rfl, rfl⟩
    · rw [resolveCollision_impulse sqrt a b h]
      simp only [(separate_velocity _ _ _ _).1, (separate_velocity _ _ _ _).2,
        (separate_mass _ _ _ _).1, (separate_mass _ _ _ _).2, Vector2f.div, Vector2f.add,
        Vector2f.sub, Vector2f.lscale]
      constructor <;> field_simp <;> ring

/-- Witness for C5: the heavy and the light sample ball with coincident
centres, in free flight. -/
theorem resolveCollision_conserves_momentum_witness :
    (resolveCollision Real.sqrt (heavyBall ℝ) (lightBall ℝ 0) false).1.mass *
          (resolveCollision Real.sqrt (heavyBall ℝ) (lightBall ℝ 0) false).1.velocity.x +
        (resolveCollision Real.sqrt (heavyBall ℝ) (lightBall ℝ 0) false).2.mass *
          (resolveCollision Real.sqrt (heavyBall ℝ) (lightBall ℝ 0) false).2.velocity.x =
        (heavyBall ℝ).mass * (heavyBall ℝ).velocity.x +
          (lightBall ℝ 0).mass * (lightBall ℝ 0).velocity.x ∧
      (resolveCollision Real.sqrt (heavyBall ℝ) (lightBall ℝ 0) false).1.mass *
          (resolveCollision Real.sqrt (heavyBall ℝ) (lightBall ℝ 0) false).1.velocity.y +
        (resolveCollision Real.sqrt (heavyBall ℝ) (lightBall ℝ 0) false).2.mass *
          (resolveCollision Real.sqrt (heavyBall ℝ) (lightBall ℝ 0) false).2.velocity.y =
        (heavyBall ℝ).mass * (heavyBall ℝ).velocity.y +
          (lightBall ℝ 0).mass * (lightBall ℝ 0).velocity.y :=
  resolveCollision_conserves_momentum Real.sqrt (heavyBall ℝ) (lightBall ℝ 0) false
    (by norm_num [heavyBall, Ball.new]) (by norm_num [lightBall, Ball.new])

/-- C6: mass-weighted coalescing.  For two balls with positive masses and gravity
on, `resolveCollision` gives both balls the velocity
`(a.velocity * a.mass + b.velocity * b.mass) / (a.mass + b.mass)`, whatever
their positions. -/
theorem resolveCollision_gravity_coalesces (sqrt : F → F) (a b : Ball F)
    (_ha : 0 < a.mass) (_hb : 0 < b.mass) :
    (resolveCollision sqrt a b true).1.velocity.x =
        (a.velocity.x * a.mass + b.velocity.x * b.mass) / (a.mass + b.mass) ∧
      (resolveCollision sqrt a b true).1.velocity.y =
        (a.velocity.y * a.mass + b.velocity.y * b.mass) / (a.mass + b.mass) ∧
      (resolveCollision sqrt a b true).2.velocity.x =
        (a.velocity.x * a.mass + b.velocity.x * b.mass) / (a.mass + b.mass) ∧
      (resolveCollision sqrt a b true).2.velocity.y =
        (a.velocity.y * a.mass + b.velocity.y * b.mass) / (a.mass + b.mass) := by
  rw [resolveCollision_gravity]
  simp [(separate_velocity _ _ _ _).1, (separate_velocity _ _ _ _).2, Vector2f.div,
    Vector2f.add, Vector2f.scale]

/-- Witness for C6: the ball of mass 4 (radius 2) with velocity `(2, 0)` and the
ball of mass 1 (radius 1) with velocity `(-2, 0)`, overlapping, both end with
velocity `(6/5, 0)`, i.e. `(1.2, 0)`. -/
theorem resolveCollision_gravity_coalesces_witness :
    (heavyBall ℝ).mass = 4 ∧ (lightBall ℝ 2).mass = 1 ∧
      checkCollision (heavyBall ℝ) (lightBall ℝ 2) = true ∧
      (resolveCollision Real.sqrt (heavyBall ℝ) (lightBall ℝ 2) true).1.velocity.x = 6 / 5 ∧
      (resolveCollision Real.sqrt (heavyBall ℝ) (lightBall ℝ 2) true).1.velocity.y = 0 ∧
      (resolveCollision Real.sqrt (heavyBall ℝ) (lightBall ℝ 2) true).2.velocity.x = 6 / 5 ∧
      (resolveCollision Real.sqrt (heavyBall ℝ) (lightBall ℝ 2) true).2.velocity.y = 0 := by
  have hm1 : (heavyBall ℝ).mass = 4 := by norm_num [heavyBall, Ball.new]
  have hm2 : (lightBall ℝ 2).mass = 1 := by norm_num [lightBall, Ball.new]
  obtain ⟨h1, h2, h3, h4⟩ := resolveCollision_gravity_coalesces Real.sqrt (heavyBall ℝ)
    (lightBall ℝ 2) (by rw [hm1]; norm_num) (by rw [hm2]; norm_num)
  rw [h1, h2, h3, h4, hm1, hm2]
  refine ⟨rfl, rfl, ?_, ?_, ?_, ?_, ?_⟩
  · norm_num [checkCollision, heavyBall, lightBall, Ball.new, Vector2f.sub]
  all_goals norm_num [heavyBall, lightBall, Ball.new]

end Resolve

/-! ## Integration and walls (`update`) -/

section Update

variable {F : Type} [LinearOrderedField F]

lemma update_radius (sqrt : F → F) (ball : Ball F) (winSize : ℕ × ℕ) (g : Bool) :
    (update sqrt ball winSize g).radius = ball.radius := rfl

lemma update_maxSpeed (sqrt : F → F) (ball : Ball F) (winSize : ℕ × ℕ) (g : Bool) :
    (update sqrt ball winSize g).maxSpeed = ball.maxSpeed := rfl

lemma update_position_x (sqrt : F → F) (ball : Ball F) (winSize : ℕ × ℕ) (g : Bool) :
    (update sqrt ball winSize g).position.x =
      (bounceAxis (tentativePosition sqrt ball g).x (clampedVelocity sqrt ball g).x ball.radius
        (winSize.1 : F) (bounceFactor g)).1 := rfl

lemma update_position_y (sqrt : F → F) (ball : Ball F) (winSize : ℕ × ℕ) (g : Bool) :
    (update sqrt ball winSize g).position.y =
      (bounceAxis (tentativePosition sqrt ball g).y (clampedVelocity sqrt ball g).y ball.radius
        (winSize.2 : F) (bounceFactor g)).1 := rfl

lemma update_velocity_x (sqrt : F → F) (ball : Ball F) (winSize : ℕ × ℕ) (g : Bool) :
    (update sqrt ball winSize g).velocity.x =
      (bounceAxis (tentativePosition sqrt ball g).x (clampedVelocity sqrt ball g).x ball.radius
        (winSize.1 : F) (bounceFactor g)).2 := rfl

lemma update_velocity_y (sqrt : F → F) (ball : Ball F) (winSize : ℕ × ℕ) (g : Bool) :
    (update sqrt ball winSize g).velocity.y =
      (bounceAxis (tentativePosition sqrt ball g).y (clampedVelocity sqrt ball g).y ball.radius
        (winSize.2 : F) (bounceFactor g)).2 := rfl

/-- The coordinate that leaves the wall test lies between `r` and `size - r`
as soon as the extent is at least the diameter. -/
lemma bounceAxis_fst_mem (p v r size k : F) (h : 2 * r ≤ size) :
    r ≤ (bounceAxis p v r size k).1 ∧ (bounceAxis p v r size k).1 ≤ size - r := by
  unfold bounceAxis
  split_ifs with h1 h2
  · exact ⟨le_refl r, by show r ≤ size - r; linarith⟩
  · exact ⟨by show r ≤ size - r; linarith, le_refl _⟩
  · push_neg at h1 h2
    exact ⟨by show r ≤ p; linarith, by show p ≤ size - r; linarith⟩

lemma bounceFactor_nonneg (g : Bool) : (0 : F) ≤ bounceFactor g := by
  cases g <;> norm_num [bounceFactor]

lemma bounceFactor_le_one (g : Bool) : (bounceFactor g : F) ≤ 1 := by
  cases g <;> norm_num [bounceFactor]

/-- The wall test never makes a velocity component larger in magnitude, for a
factor between 0 and 1. -/
lemma bounceAxis_snd_sq_le (p v r size k : F) (h0 : 0 ≤ k) (h1 : k ≤ 1) :
    (bounceAxis p v r size k).2 * (bounceAxis p v r size k).2 ≤ v * v := by
  have hk : k * k ≤ 1 := by nlinarith
  have hv : |v| * |v| = v * v := abs_mul_abs_self v
  have hvv : 0 ≤ v * v := mul_self_nonneg v
  unfold bounceAxis
  split_ifs
  · show |v| * k * (|v| * k) ≤ v * v
    nlinarith
  · show -|v| * k * (-|v| * k) ≤ v * v
    nlinarith
  · exact le_refl _

/-- After the speed limit the squared speed is at most `maxSpeed` squared. -/
lemma limitSpeed_sq_le {sqrt : F → F} (hs : IsSqrt sqrt) (v : Vector2f F) (m : F)
    (hm : 0 < m) :
    (limitSpeed sqrt v m).x * (limitSpeed sqrt v m).x +
      (limitSpeed sqrt v m).y * (limitSpeed sqrt v m).y ≤ m * m := by
  have hn := sumSq_nonneg v.x v.y
  have hsq := hs.mul_self hn
  have h0 := hs.nonneg hn
  unfold limitSpeed
  simp only
  split_ifs with h
  · have hc : sqrt (v.x * v.x + v.y * v.y) ≠ 0 := ne_of_gt (lt_trans hm h)
    simp only [Vector2f.scale]
    have e : v.x * (m / sqrt (v.x * v.x + v.y * v.y)) * (v.x * (m / sqrt (v.x * v.x + v.y * v.y)))
        + v.y * (m / sqrt (v.x * v.x + v.y * v.y)) * (v.y * (m / sqrt (v.x * v.x + v.y * v.y)))
        = (v.x * v.x + v.y * v.y) * (m * m) /
          (sqrt (v.x * v.x + v.y * v.y) * sqrt (v.x * v.x + v.y * v.y)) := by
      field_simp
      ring
    have hpos : v.x * v.x + v.y * v.y ≠ 0 := by
      rw [← hsq]
      exact mul_ne_zero hc hc
    rw [e, hsq, mul_div_assoc, mul_comm, div_mul_cancel₀ _ hpos]
  · push_neg at h
    calc v.x * v.x + v.y * v.y = sqrt (v.x * v.x + v.y * v.y) * sqrt (v.x * v.x + v.y * v.y) :=
          hsq.symm
      _ ≤ m * m := mul_self_le_mul_self h0 h

/-- C7: containment.  For a ball of positive radius `r`, any position (also one
outside the window) and velocity, either mode, and a window at least `2 r`
wide and high, after `update` the centre satisfies `r ≤ x ≤ width - r` and
`r ≤ y ≤ height - r`. -/
theorem update_containment (sqrt : F → F) (ball : Ball F) (winSize : ℕ × ℕ)
    (gravityEnabled : Bool) (_hr : 0 < ball.radius)
    (hw : 2 * ball.radius ≤ (winSize.1 : F)) (hh : 2 * ball.radius ≤ (winSize.2 : F)) :
    (update sqrt ball winSize gravityEnabled).radius ≤
        (update sqrt ball winSize gravityEnabled).position.x ∧
      (update sqrt ball winSize gravityEnabled).position.x ≤
        (winSize.1 : F) - (update sqrt ball winSize gravityEnabled).radius ∧
      (update sqrt ball winSize gravityEnabled).radius ≤
        (update sqrt ball winSize gravityEnabled).position.y ∧
      (update sqrt ball winSize gravityEnabled).position.y ≤
        (winSize.2 : F) - (update sqrt ball winSize gravityEnabled).radius := by
  rw [update_radius, update_position_x, update_position_y]
  exact ⟨(bounceAxis_fst_mem _ _ _ _ _ hw).1, (bounceAxis_fst_mem _ _ _ _ _ hw).2,
    (bounceAxis_fst_mem _ _ _ _ _ hh).1, (bounceAxis_fst_mem _ _ _ _ _ hh).2⟩

/-- Witness for C7: a ball of radius 15 far outside an 800 by 600 window, with
gravity on. -/
theorem update_containment_witness :
    (update Real.sqrt (Ball.new 15 ⟨-1000, 5000⟩ ⟨3, -40⟩ 7 : Ball ℝ) (800, 600) true).radius ≤
        (update Real.sqrt (Ball.new 15 ⟨-1000, 5000⟩ ⟨3, -40⟩ 7 : Ball ℝ) (800, 600)
          true).position.x ∧
      (update Real.sqrt (Ball.new 15 ⟨-1000, 5000⟩ ⟨3, -40⟩ 7 : Ball ℝ) (800, 600)
          true).position.x ≤
        (((800, 600) : ℕ × ℕ).1 : ℝ) -
          (update Real.sqrt (Ball.new 15 ⟨-1000, 5000⟩ ⟨3, -40⟩ 7 : Ball ℝ) (800, 600)
            true).radius ∧
      (update Real.sqrt (Ball.new 15 ⟨-1000, 5000⟩ ⟨3, -40⟩ 7 : Ball ℝ) (800, 600) true).radius ≤
        (update Real.sqrt (Ball.new 15 ⟨-1000, 5000⟩ ⟨3, -40⟩ 7 : Ball ℝ) (800, 600)
          true).position.y ∧
      (update Real.sqrt (Ball.new 15 ⟨-1000, 5000⟩ ⟨3, -40⟩ 7 : Ball ℝ) (800, 600)
          true).position.y ≤
        (((800, 600) : ℕ × ℕ).2 : ℝ) -
          (update Real.sqrt (Ball.new 15 ⟨-1000, 5000⟩ ⟨3, -40⟩ 7 : Ball ℝ) (800, 600)
            true).radius :=
  update_containment Real.sqrt (Ball.new 15 ⟨-1000, 5000⟩ ⟨3, -40⟩ 7) (800, 600) true
    (by norm_num [Ball.new]) (by norm_num [Ball.new]) (by norm_num [Ball.new])

/-- C8: speed cap.  For a ball with `maxSpeed > 0`, any velocity and position,
any window and either mode, after `update` the speed
`sqrt (velocity.x² + velocity.y²)` is at most `maxSpeed`, also when gravity was
added and when one or both wall bounces rewrote velocity components after the
limit was applied. -/
theorem update_speed_cap (sqrt : F → F) (hs : IsSqrt sqrt) (ball : Ball F) (winSize : ℕ × ℕ)
    (gravityEnabled : Bool) (hm : 0 < ball.maxSpeed) :
    sqrt ((update sqrt ball winSize gravityEnabled).velocity.x *
          (update sqrt ball winSize gravityEnabled).velocity.x +
        (update sqrt ball winSize gravityEnabled).velocity.y *
          (update sqrt ball winSize gravityEnabled).velocity.y) ≤
      (update sqrt ball winSize gravityEnabled).maxSpeed := by
  rw [update_maxSpeed, update_velocity_x, update_velocity_y]
  apply hs.le_of_le_mul_self (sumSq_nonneg _ _) (le_of_lt hm)
  have hx := bounceAxis_snd_sq_le (tentativePosition sqrt ball gravityEnabled).x
    (clampedVelocity sqrt ball gravityEnabled).x ball.radius (winSize.1 : F)
    (bounceFactor gravityEnabled) (bounceFactor_nonneg _) (bounceFactor_le_one _)
  have hy := bounceAxis_snd_sq_le (tentativePosition sqrt ball gravityEnabled).y
    (clampedVelocity sqrt ball gravityEnabled).y ball.radius (winSize.2 : F)
    (bounceFactor gravityEnabled) (bounceFactor_nonneg _) (bounceFactor_le_one _)
  have hl : (clampedVelocity sqrt ball gravityEnabled).x *
        (clampedVelocity sqrt ball gravityEnabled).x +
      (clampedVelocity sqrt ball gravityEnabled).y *
        (clampedVelocity sqrt ball gravityEnabled).y ≤ ball.maxSpeed * ball.maxSpeed :=
    limitSpeed_sq_le hs (applyGravity ball.velocity gravityEnabled) ball.maxSpeed hm
  linarith

/-- Witness for C8: a ball moving at speed 50 with cap 7, in a corner of a
window that is smaller than the ball, with gravity on. -/
theorem update_speed_cap_witness :
    Real.sqrt
        ((update Real.sqrt (Ball.new 15 ⟨0, 0⟩ ⟨-30, -40⟩ 7 : Ball ℝ) (10, 10) true).velocity.x *
            (update Real.sqrt (Ball.new 15 ⟨0, 0⟩ ⟨-30, -40⟩ 7 : Ball ℝ) (10, 10)
              true).velocity.x +
          (update Real.sqrt (Ball.new 15 ⟨0, 0⟩ ⟨-30, -40⟩ 7 : Ball ℝ) (10, 10) true).velocity.y *
            (update Real.sqrt (Ball.new 15 ⟨0, 0⟩ ⟨-30, -40⟩ 7 : Ball ℝ) (10, 10)
              true).velocity.y) ≤
      (update Real.sqrt (Ball.new 15 ⟨0, 0⟩ ⟨-30, -40⟩ 7 : Ball ℝ) (10, 10) true).maxSpeed :=
  update_speed_cap Real.sqrt isSqrt_real (Ball.new 15 ⟨0, 0⟩ ⟨-30, -40⟩ 7) (10, 10) true
    (by norm_num [Ball.new])

/-- The wall test on one axis, case by case: what `update` does to the
coordinate and to the velocity component. -/
lemma bounceAxis_cases (p v r size k : F) :
    (p - r < 0 →
        (bounceAxis p v r size k).2 = k * |v| ∧ (bounceAxis p v r size k).1 = r) ∧
      (¬ p - r < 0 → p + r > size →
        (bounceAxis p v r size k).2 = -(k * |v|) ∧ (bounceAxis p v r size k).1 = size - r) ∧
      (¬ p - r < 0 → ¬ p + r > size →
        (bounceAxis p v r size k).2 = v ∧ (bounceAxis p v r size k).1 = p) := by
  refine ⟨fun h => ?_, fun h1 h2 => ?_, fun h1 h2 => ?_⟩
  · simp only [bounceAxis, if_pos h]
    exact ⟨mul_comm _ _, trivial⟩
  · simp only [bounceAxis, if_neg h1, if_pos h2]
    exact ⟨by ring, trivial⟩
  · simp only [bounceAxis, if_neg h1, if_neg h2]
    exact ⟨trivial, trivial⟩

/-- C9: wall bounce with mode-dependent restitution.  Let `v` be the velocity
after the gravity and speed-limit steps of `update`, `pos = position + v`, and
`k = 0.8` with gravity on, `1` with gravity off.  If `pos.x - r < 0` the new
`velocity.x` is `k * |v.x|` and the new `position.x` is `r`; otherwise, if
`pos.x + r > width`, they are `-k * |v.x|` and `width - r`; likewise for y
against the height.  So on a bounce the component keeps `k` times its
magnitude and points back into the window. -/
theorem update_wall_bounce (sqrt : F → F) (ball : Ball F) (winSize : ℕ × ℕ)
    (gravityEnabled : Bool) :
    clampedVelocity sqrt ball gravityEnabled =
        limitSpeed sqrt (applyGravity ball.velocity gravityEnabled) ball.maxSpeed ∧
      tentativePosition sqrt ball gravityEnabled =
        ball.position.add (clampedVelocity sqrt ball gravityEnabled) ∧
      (bounceFactor gravityEnabled : F) = (if gravityEnabled = true then 4 / 5 else 1) ∧
      ((tentativePosition sqrt ball gravityEnabled).x - ball.radius < 0 →
        (update sqrt ball winSize gravityEnabled).velocity.x =
            bounceFactor gravityEnabled * |(clampedVelocity sqrt ball gravityEnabled).x| ∧
          (update sqrt ball winSize gravityEnabled).position.x = ball.radius ∧
          |(update sqrt ball winSize gravityEnabled).velocity.x| =
            bounceFactor gravityEnabled * |(clampedVelocity sqrt ball gravityEnabled).x| ∧
          0 ≤ (update sqrt ball winSize gravityEnabled).velocity.x) ∧
      (¬ (tentativePosition sqrt ball gravityEnabled).x - ball.radius < 0 →
        (tentativePosition sqrt ball gravityEnabled).x + ball.radius > (winSize.1 : F) →
        (update sqrt ball winSize gravityEnabled).velocity.x =
            -(bounceFactor gravityEnabled * |(clampedVelocity sqrt ball gravityEnabled).x|) ∧
          (update sqrt ball winSize gravityEnabled).position.x = (winSize.1 : F) - ball.radius ∧
          |(update sqrt ball winSize gravityEnabled).velocity.x| =
            bounceFactor gravityEnabled * |(clampedVelocity sqrt ball gravityEnabled).x| ∧
          (update sqrt ball winSize gravityEnabled).velocity.x ≤ 0) ∧
      ((tentativePosition sqrt ball gravityEnabled).y - ball.radius < 0 →
        (update sqrt ball winSize gravityEnabled).velocity.y =
            bounceFactor gravityEnabled * |(clampedVelocity sqrt ball gravityEnabled).y| ∧
          (update sqrt ball winSize gravityEnabled).position.y = ball.radius ∧
          |(update sqrt ball winSize gravityEnabled).velocity.y| =
            bounceFactor gravityEnabled * |(clampedVelocity sqrt ball gravityEnabled).y| ∧
          0 ≤ (update sqrt ball winSize gravityEnabled).velocity.y) ∧
      (¬ (tentativePosition sqrt ball gravityEnabled).y - ball.radius < 0 →
        (tentativePosition sqrt ball gravityEnabled).y + ball.radius > (winSize.2 : F) →
        (update sqrt ball winSize gravityEnabled).velocity.y =
            -(bounceFactor gravityEnabled * |(clampedVelocity sqrt ball gravityEnabled).y|) ∧
          (update sqrt ball winSize gravityEnabled).position.y = (winSize.2 : F) - ball.radius ∧
          |(update sqrt ball winSize gravityEnabled).velocity.y| =
            bounceFactor gravityEnabled * |(clampedVelocity sqrt ball gravityEnabled).y| ∧
          (update sqrt ball winSize gravityEnabled).velocity.y ≤ 0) := by
  have hk : (0 : F) ≤ bounceFactor gravityEnabled := bounceFactor_nonneg gravityEnabled
  have hnn : ∀ v : F, 0 ≤ bounceFactor gravityEnabled * |v| := fun v =>
    mul_nonneg hk (abs_nonneg v)
  rw [update_velocity_x, update_velocity_y, update_position_x, update_position_y]
  refine ⟨rfl, rfl, by cases gravityEnabled <;> simp [bounceFactor], ?_, ?_, ?_, ?_⟩
  · intro h
    obtain ⟨e1, e2⟩ := (bounceAxis_cases _ (clampedVelocity sqrt ball gravityEnabled).x _
      (winSize.1 : F) (bounceFactor gravityEnabled)).1 h
    rw [e1, e2]
    exact ⟨rfl, rfl, abs_of_nonneg (hnn _), hnn _⟩
  · intro h1 h2
    obtain ⟨e1, e2⟩ := (bounceAxis_cases _ (clampedVelocity sqrt ball gravityEnabled).x _
      (winSize.1 : F) (bounceFactor gravityEnabled)).2.1 h1 h2
    rw [e1, e2]
    exact ⟨rfl, rfl, by rw [abs_neg, abs_of_nonneg (hnn _)], neg_nonpos.mpr (hnn _)⟩
  · intro h
    obtain ⟨e1, e2⟩ := (bounceAxis_cases _ (clampedVelocity sqrt ball gravityEnabled).y _
      (winSize.2 : F) (bounceFactor gravityEnabled)).1 h
    rw [e1, e2]
    exact ⟨rfl, rfl, abs_of_nonneg (hnn _), hnn _⟩
  · intro h1 h2
    obtain ⟨e1, e2⟩ := (bounceAxis_cases _ (clampedVelocity sqrt ball gravityEnabled).y _
      (winSize.2 : F) (bounceFactor gravityEnabled)).2.1 h1 h2
    rw [e1, e2]
    exact ⟨rfl, rfl, by rw [abs_neg, abs_of_nonneg (hnn _)], neg_nonpos.mpr (hnn _)⟩

/-- Witness for C9: a ball of radius 15 at `(10, 300)` with velocity
`(-3, 3.8)` in an 800 by 600 window with gravity on crosses the left wall: it
ends at `x = 15` with `velocity.x = 0.8 * 3 = 12/5`. -/
theorem update_wall_bounce_witness :
    (update Real.sqrt (Ball.new 15 ⟨10, 300⟩ ⟨-3, 19 / 5⟩ 7 : Ball ℝ) (800, 600) true).velocity.x
        = 12 / 5 ∧
      (update Real.sqrt (Ball.new 15 ⟨10, 300⟩ ⟨-3, 19 / 5⟩ 7 : Ball ℝ) (800, 600)
        true).position.x = 15 := by
  have hc := clampedVelocity_near_wall
  have ht : (tentativePosition Real.sqrt (Ball.new 15 ⟨10, 300⟩ ⟨-3, 19 / 5⟩ 7 : Ball ℝ) true).x
      - (Ball.new 15 ⟨10, 300⟩ ⟨-3, 19 / 5⟩ 7 : Ball ℝ).radius < 0 := by
    rw [tentativePosition]
    simp only [Vector2f.add, hc]
    norm_num [Ball.new]
  obtain ⟨h1, h2, _, _⟩ := (update_wall_bounce Real.sqrt
    (Ball.new 15 ⟨10, 300⟩ ⟨-3, 19 / 5⟩ 7 : Ball ℝ) (800, 600) true).2.2.2.1 ht
  rw [h1, h2, hc]
  norm_num [bounceFactor, Ball.new]

end Update

/-! ## Overlap detection (`checkCollision`) -/

section Detect

variable {F : Type} [LinearOrderedField F]

/-- C10: `checkCollision a b` is true exactly when
`(a.x - b.x)² + (a.y - b.y)² ≤ (a.radius + b.radius)²`.  In particular two balls
of positive radii whose centres are exactly `a.radius + b.radius` apart
(tangent) are reported as colliding.  The function only returns a Boolean: it
has no access to a ball it could change. -/
theorem checkCollision_iff (a b : Ball F) :
    (checkCollision a b = true ↔
        (a.position.x - b.position.x) ^ 2 + (a.position.y - b.position.y) ^ 2 ≤
          (a.radius + b.radius) ^ 2) ∧
      (∀ sqrt : F → F, IsSqrt sqrt → 0 < a.radius → 0 < b.radius →
        sqrt ((a.position.x - b.position.x) ^ 2 + (a.position.y - b.position.y) ^ 2) =
          a.radius + b.radius →
        checkCollision a b = true) := by
  have key : checkCollision a b = true ↔
      (a.position.x - b.position.x) ^ 2 + (a.position.y - b.position.y) ^ 2 ≤
        (a.radius + b.radius) ^ 2 := by
    simp only [checkCollision, Vector2f.sub, decide_eq_true_eq, sq]
  refine ⟨key, fun sqrt hs _ _ hd => key.mpr ?_⟩
  have h := hs.mul_self (add_nonneg (sq_nonneg (a.position.x - b.position.x))
    (sq_nonneg (a.position.y - b.position.y)))
  rw [hd] at h
  rw [← h, sq]

/-- Witness for C10: radii 2 and 3, centres `(0, 0)` and `(3, 4)`, which are
exactly 5 apart. -/
theorem checkCollision_iff_witness :
    checkCollision (Ball.new 2 ⟨0, 0⟩ ⟨1, 0⟩ 7 : Ball ℝ) (Ball.new 3 ⟨3, 4⟩ ⟨0, 1⟩ 5) = true :=
  (checkCollision_iff (Ball.new 2 ⟨0, 0⟩ ⟨1, 0⟩ 7 : Ball ℝ) (Ball.new 3 ⟨3, 4⟩ ⟨0, 1⟩ 5)).2
    Real.sqrt isSqrt_real (by norm_num [Ball.new]) (by norm_num [Ball.new])
    (by
      have e : ((0 : ℝ) - 3) ^ 2 + (0 - 4) ^ 2 = 5 ^ 2 := by norm_num
      show Real.sqrt (((0 : ℝ) - 3) ^ 2 + (0 - 4) ^ 2) = 2 + 3
      rw [e, Real.sqrt_sq (by norm_num)]
      norm_num)

/-- C11: overlap detection is symmetric, `checkCollision a b = checkCollision b a`
for all balls `a` and `b`. -/
theorem checkCollision_symm (a b : Ball F) : checkCollision a b = checkCollision b a := by
  have e1 : (a.position.x - b.position.x) * (a.position.x - b.position.x) +
      (a.position.y - b.position.y) * (a.position.y - b.position.y) =
      (b.position.x - a.position.x) * (b.position.x - a.position.x) +
        (b.position.y - a.position.y) * (b.position.y - a.position.y) := by ring
  have e2 : a.radius + b.radius = b.radius + a.radius := add_comm _ _
  simp only [checkCollision, Vector2f.sub, e1, e2]

end Detect

/-! ## Interior motion (`update`) -/

section Interior

variable {F : Type} [LinearOrderedField F]

/-- C15: interior motion is semi-implicit Euler.  Let `g = 0.2` with gravity on
and `g = 0` with gravity off.  If the velocity with `g` added to its y component
is no faster than `maxSpeed`, and the position plus that velocity keeps the
disc within the four walls, then `update` yields the velocity
`velocity + (0, g)` and the position `position + (velocity + (0, g))`, the
position being advanced by the velocity already updated.  Gravity never
changes `velocity.x`. -/
theorem update_interior (sqrt : F → F) (ball : Ball F) (winSize : ℕ × ℕ)
    (gravityEnabled : Bool)
    (hspeed : sqrt (ball.velocity.x * ball.velocity.x +
        (ball.velocity.y + (if gravityEnabled = true then 1 / 5 else 0)) *
          (ball.velocity.y + (if gravityEnabled = true then 1 / 5 else 0))) ≤ ball.maxSpeed)
    (hx1 : ball.radius ≤ ball.position.x + ball.velocity.x)
    (hx2 : ball.position.x + ball.velocity.x ≤ (winSize.1 : F) - ball.radius)
    (hy1 : ball.radius ≤
      ball.position.y + (ball.velocity.y + (if gravityEnabled = true then 1 / 5 else 0)))
    (hy2 : ball.position.y + (ball.velocity.y + (if gravityEnabled = true then 1 / 5 else 0)) ≤
      (winSize.2 : F) - ball.radius) :
    (update sqrt ball winSize gravityEnabled).velocity.x = ball.velocity.x ∧
      (update sqrt ball winSize gravityEnabled).velocity.y =
        ball.velocity.y + (if gravityEnabled = true then 1 / 5 else 0) ∧
      (update sqrt ball winSize gravityEnabled).position.x =
        ball.position.x + (update sqrt ball winSize gravityEnabled).velocity.x ∧
      (update sqrt ball winSize gravityEnabled).position.y =
        ball.position.y + (update sqrt ball winSize gravityEnabled).velocity.y ∧
      (applyGravity ball.velocity gravityEnabled).x = ball.velocity.x := by
  have hg : applyGravity ball.velocity gravityEnabled =
      ⟨ball.velocity.x, ball.velocity.y + (if gravityEnabled = true then 1 / 5 else 0)⟩ := by
    cases gravityEnabled
    · simp [applyGravity]
    · simp [applyGravity]
  have hc : clampedVelocity sqrt ball gravityEnabled =
      ⟨ball.velocity.x, ball.velocity.y + (if gravityEnabled = true then 1 / 5 else 0)⟩ := by
    rw [clampedVelocity, hg, limitSpeed]
    exact if_neg (not_lt.mpr hspeed)
  have ht : tentativePosition sqrt ball gravityEnabled =
      ⟨ball.position.x + ball.velocity.x,
        ball.position.y + (ball.velocity.y + (if gravityEnabled = true then 1 / 5 else 0))⟩ := by
    rw [tentativePosition, hc]
    rfl
  have bx := (bounceAxis_cases (ball.position.x + ball.velocity.x) ball.velocity.x ball.radius
    (winSize.1 : F) (bounceFactor gravityEnabled)).2.2 (by linarith) (by linarith)
  have bY := (bounceAxis_cases
    (ball.position.y + (ball.velocity.y + (if gravityEnabled = true then 1 / 5 else 0)))
    (ball.velocity.y + (if gravityEnabled = true then 1 / 5 else 0)) ball.radius
    (winSize.2 : F) (bounceFactor gravityEnabled)).2.2 (by linarith) (by linarith)
  rw [update_velocity_x, update_velocity_y, update_position_x, update_position_y, hc, ht, hg]
  exact ⟨bx.1, bY.1, by rw [bx.2, bx.1], by rw [bY.2, bY.1], rfl⟩

/-- Witness for C15: a ball of radius 15 at `(400, 300)` with velocity `(3, 19/5)`
and cap 7 in an 800 by 600 window with gravity on; the new velocity is
`(3, 4)`, of length 5. -/
theorem update_interior_witness :
    (update Real.sqrt (Ball.new 15 ⟨400, 300⟩ ⟨3, 19 / 5⟩ 7 : Ball ℝ) (800, 600) true).velocity.x
        = 3 ∧
      (update Real.sqrt (Ball.new 15 ⟨400, 300⟩ ⟨3, 19 / 5⟩ 7 : Ball ℝ) (800, 600)
        true).velocity.y = 4 ∧
      (update Real.sqrt (Ball.new 15 ⟨400, 300⟩ ⟨3, 19 / 5⟩ 7 : Ball ℝ) (800, 600)
        true).position.x = 403 ∧
      (update Real.sqrt (Ball.new 15 ⟨400, 300⟩ ⟨3, 19 / 5⟩ 7 : Ball ℝ) (800, 600)
        true).position.y = 304 := by
  obtain ⟨h1, h2, h3, h4, _⟩ := update_interior Real.sqrt
    (Ball.new 15 ⟨400, 300⟩ ⟨3, 19 / 5⟩ 7 : Ball ℝ) (800, 600) true
    (by norm_num [Ball.new, real_sqrt_twenty_five]) (by norm_num [Ball.new])
    (by norm_num [Ball.new]) (by norm_num [Ball.new]) (by norm_num [Ball.new])
  rw [h3, h4, h1, h2]
  norm_num [Ball.new]

end Interior

/-! ## Collision response: geometry of the correction -/

section Geometry

variable {F : Type} [LinearOrderedField F]

/-- On the branch that returns at line 94 nothing is written. -/
lemma resolveCollision_skip_iff (sqrt : F → F) (a b : Ball F) (g : Bool) :
    (g = true ∨ velocityAlongNormal sqrt a b ≤ 0) ∨
      (g = false ∧ resolveCollision sqrt a b g = (a, b)) := by
  cases g with
  | true => exact Or.inl (Or.inl rfl)
  | false =>
    rcases lt_or_le 0 (velocityAlongNormal sqrt a b) with h | h
    · exact Or.inr ⟨rfl, resolveCollision_skip sqrt a b h⟩
    · exact Or.inl (Or.inr h)

/-- C18: `resolveCollision` preserves the midpoint of the two centres.  In every
mode and every branch `(a.position + b.position) / 2` is the same after the
call as before: the correction is split equally and oppositely, whatever the
masses. -/
theorem resolveCollision_midpoint (sqrt : F → F) (a b : Ball F) (gravityEnabled : Bool) :
    ((resolveCollision sqrt a b gravityEnabled).1.position.x +
          (resolveCollision sqrt a b gravityEnabled).2.position.x) / 2 =
        (a.position.x + b.position.x) / 2 ∧
      ((resolveCollision sqrt a b gravityEnabled).1.position.y +
          (resolveCollision sqrt a b gravityEnabled).2.position.y) / 2 =
        (a.position.y + b.position.y) / 2 := by
  rcases resolveCollision_skip_iff sqrt a b gravityEnabled with hb | ⟨_, hskip⟩
  · obtain ⟨h1, h2⟩ := resolveCollision_position sqrt a b gravityEnabled hb
    rw [h1, h2]
    rcases lt_or_le 0 (collisionOverlap sqrt a b) with ho | ho
    · obtain ⟨e1, e2⟩ := separate_position_of_pos a b (collisionNormal sqrt a b)
        (collisionOverlap sqrt a b) ho
      rw [e1, e2]
      simp only [Vector2f.sub, Vector2f.add, Vector2f.scale]
      constructor <;> ring
    · obtain ⟨e1, e2⟩ := separate_position_of_not_pos a b (collisionNormal sqrt a b)
        (collisionOverlap sqrt a b) (not_lt.mpr ho)
      rw [e1, e2]
      exact ⟨rfl, rfl⟩
  · rw [hskip]
    exact ⟨rfl, rfl⟩

/-- C17 (evaluation of the code at the failing input): two unit balls with the
same centre in free flight, `a` with velocity `(1, 0)` and `b` with velocity
`(-1, 0)`.  The normal is the substitute `(1, 0)`, along which the velocity of
`b` relative to `a` is `-2`: in the direction `(1, 0)` the balls are closing.
The radius sum is `2 > 1`, but the code's `velocityAlongNormal` is `2 > 0`, so
`resolveCollision` returns at line 94 and both centres stay at `x = 0` instead
of being shifted by `-1/2` and `+1/2`. -/
theorem resolveCollision_degenerate_skip_no_shift :
    checkCollision (unitBall ℝ 0 1) (unitBall ℝ 0 (-1)) = true ∧
      rawDistance Real.sqrt (unitBall ℝ 0 1) (unitBall ℝ 0 (-1)) < 1 / 10000 ∧
      1 < (unitBall ℝ 0 1).radius + (unitBall ℝ 0 (-1)).radius ∧
      ((unitBall ℝ 0 (-1)).velocity.sub (unitBall ℝ 0 1).velocity).dot
          (collisionNormal Real.sqrt (unitBall ℝ 0 1) (unitBall ℝ 0 (-1))) = -2 ∧
      0 < velocityAlongNormal Real.sqrt (unitBall ℝ 0 1) (unitBall ℝ 0 (-1)) ∧
      (resolveCollision Real.sqrt (unitBall ℝ 0 1) (unitBall ℝ 0 (-1)) false).1.position.x = 0 ∧
      (resolveCollision Real.sqrt (unitBall ℝ 0 1) (unitBall ℝ 0 (-1)) false).2.position.x = 0 ∧
      (resolveCollision Real.sqrt (unitBall ℝ 0 1) (unitBall ℝ 0 (-1)) false).1.position.x ≠
        (unitBall ℝ 0 1).position.x -
          ((unitBall ℝ 0 1).radius + (unitBall ℝ 0 (-1)).radius - 1) / 2 ∧
      (resolveCollision Real.sqrt (unitBall ℝ 0 1) (unitBall ℝ 0 (-1)) false).2.position.x ≠
        (unitBall ℝ 0 (-1)).position.x +
          ((unitBall ℝ 0 1).radius + (unitBall ℝ 0 (-1)).radius - 1) / 2 := by
  obtain ⟨hnx, hny⟩ := collisionNormal_unitBall_zero_zero 1 (-1)
  have hv : 0 < velocityAlongNormal Real.sqrt (unitBall ℝ 0 1) (unitBall ℝ 0 (-1)) := by
    simp only [velocityAlongNormal, hnx, hny, Vector2f.sub]
    norm_num [unitBall, Ball.new]
  have hdot : ((unitBall ℝ 0 (-1)).velocity.sub (unitBall ℝ 0 1).velocity).dot
      (collisionNormal Real.sqrt (unitBall ℝ 0 1) (unitBall ℝ 0 (-1))) = -2 := by
    simp only [Vector2f.dot, hnx, hny, Vector2f.sub]
    norm_num [unitBall, Ball.new]
  rw [resolveCollision_skip _ _ _ hv, rawDistance_unitBall_zero_zero, unitBall_radius,
    unitBall_radius]
  refine ⟨?_, by norm_num, by norm_num, hdot, hv, ?_, ?_, ?_, ?_⟩
  · norm_num [checkCollision, unitBall, Ball.new, Vector2f.sub]
  all_goals norm_num [unitBall, Ball.new]

/-- For two balls whose centres are less than `0.0001` apart,
`resolveCollision` works with the normal `(1, 0)` and the distance `1`.  In free
flight both `velocity.y` are unchanged; in either mode both `position.y` are
unchanged.  When the function does not return at line 94 (gravity on, or
`velocityAlongNormal ≤ 0`) and `a.radius + b.radius > 1`, `a` is shifted by
`-(a.radius + b.radius - 1) / 2` and `b` by `+(a.radius + b.radius - 1) / 2`
along x; when `a.radius + b.radius ≤ 1` no position changes. -/
lemma resolveCollision_degenerate (sqrt : F → F) (a b : Ball F) (gravityEnabled : Bool)
    (hdeg : rawDistance sqrt a b < 1 / 10000) :
    (collisionNormal sqrt a b).x = 1 ∧ (collisionNormal sqrt a b).y = 0 ∧
      collisionDistance sqrt a b = 1 ∧
      (resolveCollision sqrt a b false).1.velocity.y = a.velocity.y ∧
      (resolveCollision sqrt a b false).2.velocity.y = b.velocity.y ∧
      (resolveCollision sqrt a b gravityEnabled).1.position.y = a.position.y ∧
      (resolveCollision sqrt a b gravityEnabled).2.position.y = b.position.y ∧
      ((gravityEnabled = true ∨ velocityAlongNormal sqrt a b ≤ 0) →
        1 < a.radius + b.radius →
        (resolveCollision sqrt a b gravityEnabled).1.position.x =
            a.position.x - (a.radius + b.radius - 1) / 2 ∧
          (resolveCollision sqrt a b gravityEnabled).2.position.x =
            b.position.x + (a.radius + b.radius - 1) / 2) ∧
      (a.radius + b.radius ≤ 1 →
        (resolveCollision sqrt a b gravityEnabled).1.position.x = a.position.x ∧
          (resolveCollision sqrt a b gravityEnabled).2.position.x = b.position.x) := by
  obtain ⟨hd, hnx, hny⟩ := collision_degenerate sqrt a b hdeg
  have ho : collisionOverlap sqrt a b = a.radius + b.radius - 1 := by
    rw [collisionOverlap, hd]
  refine ⟨hnx, hny, hd, ?_, ?_, ?_, ?_, ?_, ?_⟩
  · rcases lt_or_le 0 (velocityAlongNormal sqrt a b) with h | h
    · rw [resolveCollision_skip sqrt a b h]
    · rw [resolveCollision_impulse sqrt a b h, (separate_velocity _ _ _ _).1]
      simp only [Vector2f.sub, Vector2f.div, Vector2f.lscale, hny]
      ring
  · rcases lt_or_le 0 (velocityAlongNormal sqrt a b) with h | h
    · rw [resolveCollision_skip sqrt a b h]
    · rw [resolveCollision_impulse sqrt a b h, (separate_velocity _ _ _ _).2]
      simp only [Vector2f.add, Vector2f.div, Vector2f.lscale, hny]
      ring
  · rcases resolveCollision_skip_iff sqrt a b gravityEnabled with hb | ⟨_, hskip⟩
    · rw [(resolveCollision_position sqrt a b gravityEnabled hb).1]
      rcases lt_or_le 0 (collisionOverlap sqrt a b) with hp | hp
      · rw [(separate_position_of_pos a b _ _ hp).1]
        simp only [Vector2f.sub, Vector2f.scale, hny]
        ring
      · rw [(separate_position_of_not_pos a b _ _ (not_lt.mpr hp)).1]
    · rw [hskip]
  · rcases resolveCollision_skip_iff sqrt a b gravityEnabled with hb | ⟨_, hskip⟩
    · rw [(resolveCollision_position sqrt a b gravityEnabled hb).2]
      rcases lt_or_le 0 (collisionOverlap sqrt a b) with hp | hp
      · rw [(separate_position_of_pos a b _ _ hp).2]
        simp only [Vector2f.add, Vector2f.scale, hny]
        ring
      · rw [(separate_position_of_not_pos a b _ _ (not_lt.mpr hp)).2]
    · rw [hskip]
  · intro hb hr
    have hp : 0 < collisionOverlap sqrt a b := by rw [ho]; linarith
    obtain ⟨h1, h2⟩ := resolveCollision_position sqrt a b gravityEnabled hb
    obtain ⟨e1, e2⟩ := separate_position_of_pos a b (collisionNormal sqrt a b)
      (collisionOverlap sqrt a b) hp
    rw [h1, h2, e1, e2]
    simp only [Vector2f.sub, Vector2f.add, Vector2f.scale, hnx, ho]
    constructor <;> ring
  · intro hr
    have hp : ¬ 0 < collisionOverlap sqrt a b := by rw [ho]; linarith
    rcases resolveCollision_skip_iff sqrt a b gravityEnabled with hb | ⟨_, hskip⟩
    · obtain ⟨h1, h2⟩ := resolveCollision_position sqrt a b gravityEnabled hb
      obtain ⟨e1, e2⟩ := separate_position_of_not_pos a b (collisionNormal sqrt a b)
        (collisionOverlap sqrt a b) hp
      rw [h1, h2, e1, e2]
      exact ⟨rfl, rfl⟩
    · rw [hskip]
      exact ⟨rfl, rfl⟩

/-- Two vectors with the same components are equal. -/
lemma Vector2f.eq_of_components {G : Type} {u v : Vector2f G} (hx : u.x = v.x)
    (hy : u.y = v.y) : u = v := by
  cases u
  cases v
  simp only [Vector2f.mk.injEq]
  exact ⟨hx, hy⟩

/-- With gravity on, a pair that shares one velocity and has no positive overlap
is left as it is. -/
lemma resolveCollision_gravity_fixed (sqrt : F → F) (p q : Ball F)
    (hv : p.velocity = q.velocity) (hm : p.mass + q.mass ≠ 0)
    (ho : collisionOverlap sqrt p q ≤ 0) : resolveCollision sqrt p q true = (p, q) := by
  have havg : ((p.velocity.scale p.mass).add (q.velocity.scale q.mass)).div (p.mass + q.mass) =
      p.velocity := by
    apply Vector2f.eq_of_components
    · simp only [Vector2f.div, Vector2f.add, Vector2f.scale, ← hv]
      field_simp
      ring
    · simp only [Vector2f.div, Vector2f.add, Vector2f.scale, ← hv]
      field_simp
      ring
  rw [resolveCollision_gravity, havg]
  nth_rewrite 2 [hv]
  simp only [separate, if_neg (not_lt.mpr ho)]

/-- A pair that `checkCollision` reports has its centres no further apart than
the radius sum, for positive radii. -/
lemma rawDistance_le_of_checkCollision {sqrt : F → F} (hs : IsSqrt sqrt) (a b : Ball F)
    (hra : 0 < a.radius) (hrb : 0 < b.radius) (hov : checkCollision a b = true) :
    rawDistance sqrt a b ≤ a.radius + b.radius := by
  have h1 : (a.position.x - b.position.x) * (a.position.x - b.position.x) +
      (a.position.y - b.position.y) * (a.position.y - b.position.y) ≤
      (a.radius + b.radius) * (a.radius + b.radius) := by
    simpa only [checkCollision, Vector2f.sub, decide_eq_true_eq] using hov
  have hsq := rawDistance_mul_self hs a b
  have hR : 0 ≤ a.radius + b.radius := le_of_lt (add_pos hra hrb)
  by_contra hlt
  push_neg at hlt
  have h2 := mul_self_lt_mul_self hR hlt
  nlinarith

/-- With gravity on and centres at least `0.0001` apart, an overlapping pair
comes out of `resolveCollision` exactly tangent. -/
lemma resolveCollision_gravity_tangent {sqrt : F → F} (hs : IsSqrt sqrt) (a b : Ball F)
    (hra : 0 < a.radius) (hrb : 0 < b.radius) (hnd : 1 / 10000 ≤ rawDistance sqrt a b)
    (hov : checkCollision a b = true) :
    rawDistance sqrt (resolveCollision sqrt a b true).1 (resolveCollision sqrt a b true).2 =
      a.radius + b.radius := by
  obtain ⟨h1, h2⟩ := resolveCollision_position sqrt a b true (Or.inl rfl)
  rw [rawDistance_congr sqrt _ _ _ _ h1 h2]
  rcases lt_or_le 0 (collisionOverlap sqrt a b) with ho | ho
  · exact separate_rawDistance hs a b hnd ho
  · obtain ⟨e1, e2⟩ := separate_position_of_not_pos a b (collisionNormal sqrt a b)
      (collisionOverlap sqrt a b) (not_lt.mpr ho)
    rw [rawDistance_congr sqrt _ _ a b e1 e2]
    have hle := rawDistance_le_of_checkCollision hs a b hra hrb hov
    unfold collisionOverlap at ho
    rw [(collision_nondegenerate sqrt a b hnd).1] at ho
    linarith

/-- C19: gravity-mode `resolveCollision` is idempotent on non-degenerate
overlapping pairs.  For two balls with positive radii and masses whose centres
are at least `0.0001` apart and which `checkCollision` reports, a second call
with gravity on returns exactly the result of the first: after the first call
the balls are exactly tangent and share one velocity. -/
theorem resolveCollision_gravity_idempotent (sqrt : F → F) (hs : IsSqrt sqrt) (a b : Ball F)
    (hra : 0 < a.radius) (hrb : 0 < b.radius) (hma : 0 < a.mass) (hmb : 0 < b.mass)
    (hnd : 1 / 10000 ≤ rawDistance sqrt a b) (hov : checkCollision a b = true) :
    resolveCollision sqrt (resolveCollision sqrt a b true).1 (resolveCollision sqrt a b true).2
        true = resolveCollision sqrt a b true ∧
      rawDistance sqrt (resolveCollision sqrt a b true).1 (resolveCollision sqrt a b true).2 =
        (resolveCollision sqrt a b true).1.radius + (resolveCollision sqrt a b true).2.radius ∧
      (resolveCollision sqrt a b true).1.velocity = (resolveCollision sqrt a b true).2.velocity := by
  have htan := resolveCollision_gravity_tangent hs a b hra hrb hnd hov
  obtain ⟨r1, r2⟩ := resolveCollision_radius sqrt a b true
  have hle := rawDistance_le_of_checkCollision hs a b hra hrb hov
  have hvel : (resolveCollision sqrt a b true).1.velocity =
      (resolveCollision sqrt a b true).2.velocity := by
    rw [resolveCollision_gravity, (separate_velocity _ _ _ _).1, (separate_velocity _ _ _ _).2]
  have hmass : (resolveCollision sqrt a b true).1.mass + (resolveCollision sqrt a b true).2.mass
      ≠ 0 := by
    rw [resolveCollision_gravity, (separate_mass _ _ _ _).1, (separate_mass _ _ _ _).2]
    exact ne_of_gt (add_pos hma hmb)
  have hover : collisionOverlap sqrt (resolveCollision sqrt a b true).1
      (resolveCollision sqrt a b true).2 ≤ 0 := by
    have hnd2 : 1 / 10000 ≤ rawDistance sqrt (resolveCollision sqrt a b true).1
        (resolveCollision sqrt a b true).2 := by
      rw [htan]
      exact le_trans hnd hle
    rw [collisionOverlap, (collision_nondegenerate sqrt _ _ hnd2).1, htan, r1, r2, sub_self]
  refine ⟨?_, by rw [htan, r1, r2], hvel⟩
  exact resolveCollision_gravity_fixed sqrt _ _ hvel hmass hover

/-- Witness for C19: the unit balls at `x = 1` and `x = 0`, one apart, with
velocities `(1, 0)` and `(-1, 0)`. -/
theorem resolveCollision_gravity_idempotent_witness :
    resolveCollision Real.sqrt
          (resolveCollision Real.sqrt (unitBall ℝ 1 1) (unitBall ℝ 0 (-1)) true).1
          (resolveCollision Real.sqrt (unitBall ℝ 1 1) (unitBall ℝ 0 (-1)) true).2 true =
        resolveCollision Real.sqrt (unitBall ℝ 1 1) (unitBall ℝ 0 (-1)) true ∧
      rawDistance Real.sqrt
          (resolveCollision Real.sqrt (unitBall ℝ 1 1) (unitBall ℝ 0 (-1)) true).1
          (resolveCollision Real.sqrt (unitBall ℝ 1 1) (unitBall ℝ 0 (-1)) true).2 =
        (resolveCollision Real.sqrt (unitBall ℝ 1 1) (unitBall ℝ 0 (-1)) true).1.radius +
          (resolveCollision Real.sqrt (unitBall ℝ 1 1) (unitBall ℝ 0 (-1)) true).2.radius ∧
      (resolveCollision Real.sqrt (unitBall ℝ 1 1) (unitBall ℝ 0 (-1)) true).1.velocity =
        (resolveCollision Real.sqrt (unitBall ℝ 1 1) (unitBall ℝ 0 (-1)) true).2.velocity :=
  resolveCollision_gravity_idempotent Real.sqrt isSqrt_real (unitBall ℝ 1 1) (unitBall ℝ 0 (-1))
    (by rw [unitBall_radius]; norm_num) (by rw [unitBall_radius]; norm_num)
    (by rw [unitBall_mass]; norm_num) (by rw [unitBall_mass]; norm_num)
    (by rw [rawDistance_unitBall_one_zero]; norm_num)
    (by norm_num [checkCollision, unitBall, Ball.new, Vector2f.sub])

end Geometry

/-! ## Speed in free flight (`update` with gravity off) -/

section FreeFlight

variable {F : Type} [LinearOrderedField F]

/-- The speed only depends on the magnitudes of the two components. -/
lemma speed_congr_abs (sqrt : F → F) (u v : Vector2f F) (hx : |u.x| = |v.x|)
    (hy : |u.y| = |v.y|) : speed sqrt u = speed sqrt v := by
  have ex : u.x * u.x = v.x * v.x := by
    rw [← abs_mul_abs_self u.x, hx, abs_mul_abs_self]
  have ey : u.y * u.y = v.y * v.y := by
    rw [← abs_mul_abs_self u.y, hy, abs_mul_abs_self]
  rw [speed, speed, ex, ey]

/-- With the factor 1 the wall test keeps the magnitude of the component. -/
lemma bounceAxis_one_abs (p v r size : F) : |(bounceAxis p v r size 1).2| = |v| := by
  unfold bounceAxis
  split_ifs
  · show |(|v| * 1)| = |v|
    rw [mul_one, abs_abs]
  · show |(-|v| * 1)| = |v|
    rw [mul_one, abs_neg, abs_abs]
  · rfl

/-- With gravity off, `update` changes the velocity after the speed limit only
in the signs of its components. -/
lemma update_free_flight_abs (sqrt : F → F) (ball : Ball F) (winSize : ℕ × ℕ) :
    |(update sqrt ball winSize false).velocity.x| =
        |(limitSpeed sqrt ball.velocity ball.maxSpeed).x| ∧
      |(update sqrt ball winSize false).velocity.y| =
        |(limitSpeed sqrt ball.velocity ball.maxSpeed).y| := by
  rw [update_velocity_x, update_velocity_y]
  have hk : (bounceFactor false : F) = 1 := rfl
  rw [hk]
  exact ⟨bounceAxis_one_abs _ _ _ _, bounceAxis_one_abs _ _ _ _⟩

/-- A velocity no faster than the cap passes the speed limit unchanged. -/
lemma limitSpeed_of_le (sqrt : F → F) (v : Vector2f F) (m : F) (h : speed sqrt v ≤ m) :
    limitSpeed sqrt v m = v := by
  unfold limitSpeed
  exact if_neg (not_lt.mpr h)

/-- A velocity faster than a positive cap leaves the speed limit with exactly
the cap as its speed. -/
lemma speed_limitSpeed_of_gt {sqrt : F → F} (hs : IsSqrt sqrt) (v : Vector2f F) (m : F)
    (hm : 0 < m) (h : m < speed sqrt v) : speed sqrt (limitSpeed sqrt v m) = m := by
  have hn := sumSq_nonneg v.x v.y
  have hsq : speed sqrt v * speed sqrt v = v.x * v.x + v.y * v.y := hs.mul_self hn
  have hc : speed sqrt v ≠ 0 := ne_of_gt (lt_trans hm h)
  have hl : limitSpeed sqrt v m = v.scale (m / speed sqrt v) := by
    unfold limitSpeed
    exact if_pos h
  rw [hl]
  unfold speed at hsq hc ⊢
  apply hs.eq_of_mul_self (le_of_lt hm)
  simp only [Vector2f.scale]
  generalize sqrt (v.x * v.x + v.y * v.y) = c at hsq hc
  have e : v.x * (m / c) * (v.x * (m / c)) + v.y * (m / c) * (v.y * (m / c)) =
      (v.x * v.x + v.y * v.y) * (m * m) / (c * c) := by
    field_simp
    ring
  rw [e, ← hsq]
  field_simp

/-- C20: with gravity off `update` never increases the speed.  For a ball with
`maxSpeed > 0` and any window, the speed after `update` is
`min (speed before) maxSpeed`.  In particular a ball at or below its cap keeps
exactly its speed over any sequence of frames (the window size being read anew
at each), whatever walls it hits: only the signs of the velocity components
change. -/
theorem update_free_flight_speed (sqrt : F → F) (hs : IsSqrt sqrt) (ball : Ball F)
    (winSize : ℕ × ℕ) (hm : 0 < ball.maxSpeed) :
    speed sqrt (update sqrt ball winSize false).velocity =
        min (speed sqrt ball.velocity) ball.maxSpeed ∧
      (speed sqrt ball.velocity ≤ ball.maxSpeed →
        ∀ sizes : List (ℕ × ℕ),
          speed sqrt (sizes.foldl (fun b w => update sqrt b w false) ball).velocity =
              speed sqrt ball.velocity ∧
            |(sizes.foldl (fun b w => update sqrt b w false) ball).velocity.x| =
              |ball.velocity.x| ∧
            |(sizes.foldl (fun b w => update sqrt b w false) ball).velocity.y| =
              |ball.velocity.y|) := by
  constructor
  · obtain ⟨hx, hy⟩ := update_free_flight_abs sqrt ball winSize
    rw [speed_congr_abs sqrt _ _ hx hy]
    rcases lt_or_le ball.maxSpeed (speed sqrt ball.velocity) with h | h
    · rw [speed_limitSpeed_of_gt hs _ _ hm h, min_eq_right (le_of_lt h)]
    · rw [limitSpeed_of_le sqrt _ _ h, min_eq_left h]
  · intro hle sizes
    have key : ∀ (l : List (ℕ × ℕ)) (b : Ball F), speed sqrt b.velocity ≤ b.maxSpeed →
        |(l.foldl (fun b w => update sqrt b w false) b).velocity.x| = |b.velocity.x| ∧
          |(l.foldl (fun b w => update sqrt b w false) b).velocity.y| = |b.velocity.y| := by
      intro l
      induction l with
      | nil => intro b _; exact ⟨rfl, rfl⟩
      | cons w l ih =>
        intro b hb
        obtain ⟨hx, hy⟩ := update_free_flight_abs sqrt b w
        rw [limitSpeed_of_le sqrt _ _ hb] at hx hy
        have hb2 : speed sqrt (update sqrt b w false).velocity ≤
            (update sqrt b w false).maxSpeed := by
          rw [speed_congr_abs sqrt _ _ hx hy, update_maxSpeed]
          exact hb
        obtain ⟨ix, iy⟩ := ih (update sqrt b w false) hb2
        rw [List.foldl_cons, ix, iy]
        exact ⟨hx, hy⟩
    obtain ⟨kx, ky⟩ := key sizes ball hle
    exact ⟨speed_congr_abs sqrt _ _ kx ky, kx, ky⟩

/-- Witness for C20: a ball at the left wall moving at `(-3, 4)`, speed 5 with
cap 7: the speed after `update` is `min 5 7`, and over two frames, the
first of which bounces it off the left wall, the speed and the magnitudes of
the components stay as they are. -/
theorem update_free_flight_speed_witness :
    speed Real.sqrt
          (update Real.sqrt (Ball.new 15 ⟨10, 300⟩ ⟨-3, 4⟩ 7 : Ball ℝ) (800, 600) false).velocity =
        min (speed Real.sqrt (Ball.new 15 ⟨10, 300⟩ ⟨-3, 4⟩ 7 : Ball ℝ).velocity)
          (Ball.new 15 ⟨10, 300⟩ ⟨-3, 4⟩ 7 : Ball ℝ).maxSpeed ∧
      speed Real.sqrt
          (([(800, 600), (640, 480)] : List (ℕ × ℕ)).foldl
            (fun b w => update Real.sqrt b w false)
            (Ball.new 15 ⟨10, 300⟩ ⟨-3, 4⟩ 7 : Ball ℝ)).velocity =
        speed Real.sqrt (Ball.new 15 ⟨10, 300⟩ ⟨-3, 4⟩ 7 : Ball ℝ).velocity ∧
      |(([(800, 600), (640, 480)] : List (ℕ × ℕ)).foldl
            (fun b w => update Real.sqrt b w false)
            (Ball.new 15 ⟨10, 300⟩ ⟨-3, 4⟩ 7 : Ball ℝ)).velocity.x| =
        |(Ball.new 15 ⟨10, 300⟩ ⟨-3, 4⟩ 7 : Ball ℝ).velocity.x| ∧
      |(([(800, 600), (640, 480)] : List (ℕ × ℕ)).foldl
            (fun b w => update Real.sqrt b w false)
            (Ball.new 15 ⟨10, 300⟩ ⟨-3, 4⟩ 7 : Ball ℝ)).velocity.y| =
        |(Ball.new 15 ⟨10, 300⟩ ⟨-3, 4⟩ 7 : Ball ℝ).velocity.y| :=
  ⟨(update_free_flight_speed Real.sqrt isSqrt_real (Ball.new 15 ⟨10, 300⟩ ⟨-3, 4⟩ 7 : Ball ℝ)
      (800, 600) (by norm_num [Ball.new])).1,
    (update_free_flight_speed Real.sqrt isSqrt_real (Ball.new 15 ⟨10, 300⟩ ⟨-3, 4⟩ 7 : Ball ℝ)
      (800, 600) (by norm_num [Ball.new])).2
      (by norm_num [speed, Ball.new, real_sqrt_twenty_five]) [(800, 600), (640, 480)]⟩

end FreeFlight

/-! ## Divisions -/

section Division

variable {F : Type} [LinearOrderedField F]

/-- A checked division by a non-zero divisor succeeds. -/
lemma divChecked_of_ne (x y : F) (h : y ≠ 0) : divChecked x y = some (x / y) := by
  simp only [divChecked, if_neg h]

/-- A checked division of a vector by a non-zero divisor succeeds. -/
lemma vectorDivChecked_of_ne (v : Vector2f F) (s : F) (h : s ≠ 0) :
    v.divChecked s = some (v.div s) := by
  simp only [Vector2f.divChecked, if_neg h]

/-- The variable `distance` is positive after the guard of lines 73-76. -/
lemma collisionDistance_pos (sqrt : F → F) (a b : Ball F) : 0 < collisionDistance sqrt a b := by
  unfold collisionDistance
  split_ifs with h
  · exact one_pos
  · exact lt_of_lt_of_le (by norm_num) (not_lt.mp h)

/-- With a positive speed cap no division of `update` has a zero divisor. -/
lemma updateChecked_eq (sqrt : F → F) (ball : Ball F) (winSize : ℕ × ℕ) (g : Bool)
    (hm : 0 < ball.maxSpeed) :
    updateChecked sqrt ball winSize g = some (update sqrt ball winSize g) := by
  unfold updateChecked update tentativePosition clampedVelocity limitSpeed
  simp only
  split_ifs with h
  · rw [divChecked_of_ne _ _ (ne_of_gt (lt_trans hm h))]
    rfl
  · rfl

/-- With positive masses no division of `resolveCollision` has a zero divisor. -/
lemma resolveCollisionChecked_eq (sqrt : F → F) (a b : Ball F) (g : Bool)
    (ha : 0 < a.mass) (hb : 0 < b.mass) :
    resolveCollisionChecked sqrt a b g = some (resolveCollision sqrt a b g) := by
  have ha0 : a.mass ≠ 0 := ne_of_gt ha
  have hb0 : b.mass ≠ 0 := ne_of_gt hb
  have hab : a.mass + b.mass ≠ 0 := ne_of_gt (add_pos ha hb)
  have hinv : 1 / a.mass + 1 / b.mass ≠ 0 :=
    ne_of_gt (add_pos (one_div_pos.mpr ha) (one_div_pos.mpr hb))
  have hd : collisionDistance sqrt a b ≠ 0 := ne_of_gt (collisionDistance_pos sqrt a b)
  unfold resolveCollisionChecked
  rw [vectorDivChecked_of_ne _ _ hd]
  cases g with
  | true =>
    rw [resolveCollision_gravity]
    simp only [vectorDivChecked_of_ne _ _ hab]
    rfl
  | false =>
    rcases lt_or_le 0 (velocityAlongNormal sqrt a b) with h | h
    · rw [resolveCollision_skip sqrt a b h]
      have h2 : (a.velocity.sub b.velocity).x *
            ((collisionDiff sqrt a b).div (collisionDistance sqrt a b)).x +
          (a.velocity.sub b.velocity).y *
            ((collisionDiff sqrt a b).div (collisionDistance sqrt a b)).y > 0 := h
      simp [h2]
    · rw [resolveCollision_impulse sqrt a b h]
      have h2 : ¬ ((a.velocity.sub b.velocity).x *
            ((collisionDiff sqrt a b).div (collisionDistance sqrt a b)).x +
          (a.velocity.sub b.velocity).y *
            ((collisionDiff sqrt a b).div (collisionDistance sqrt a b)).y > 0) := not_lt.mpr h
      simp only [divChecked_of_ne _ _ ha0, divChecked_of_ne _ _ hb0, divChecked_of_ne _ _ hinv,
        vectorDivChecked_of_ne _ _ ha0, vectorDivChecked_of_ne _ _ hb0, Option.some_bind,
        Option.bind_eq_bind, bind_pure_comp, Bool.false_eq_true, if_false, if_neg h2]
      rfl
/-- The checked function does fail when a divisor is zero: with gravity on and
masses that sum to zero, line 84 divides by zero. -/
lemma resolveCollisionChecked_zero_mass (sqrt : F → F) (a b : Ball F)
    (h : a.mass + b.mass = 0) : resolveCollisionChecked sqrt a b true = none := by
  have hd : collisionDistance sqrt a b ≠ 0 := ne_of_gt (collisionDistance_pos sqrt a b)
  unfold resolveCollisionChecked
  rw [vectorDivChecked_of_ne _ _ hd]
  simp [Vector2f.divChecked, h]

/-- A ball that satisfies the invariant has a positive mass. -/
lemma BodyInv.mass_pos {ball : Ball F} (h : BodyInv ball) : 0 < ball.mass := by
  rw [h.2.1]
  exact mul_pos h.1 h.1

/-- C16: no division by zero.  For balls that satisfy the invariant
(`radius > 0`, `mass = radius²`, `maxSpeed > 0`), at all positions and
velocities, coincident centres and zero velocity included, `update` and
`resolveCollision` with every division checked succeed and return what the
unchecked functions return.  The divisors are non-zero one by one:
`currentSpeed` when it exceeds `maxSpeed`, `distance` after the guard,
`a.mass + b.mass`, `a.mass`, `b.mass` and `1/a.mass + 1/b.mass`. -/
theorem no_division_by_zero (sqrt : F → F) (a b : Ball F) (winSize : ℕ × ℕ)
    (gravityEnabled : Bool) (ha : BodyInv a) (hb : BodyInv b) :
    updateChecked sqrt a winSize gravityEnabled = some (update sqrt a winSize gravityEnabled) ∧
      resolveCollisionChecked sqrt a b gravityEnabled =
        some (resolveCollision sqrt a b gravityEnabled) ∧
      (speed sqrt (applyGravity a.velocity gravityEnabled) > a.maxSpeed →
        speed sqrt (applyGravity a.velocity gravityEnabled) ≠ 0) ∧
      collisionDistance sqrt a b ≠ 0 ∧
      a.mass + b.mass ≠ 0 ∧ a.mass ≠ 0 ∧ b.mass ≠ 0 ∧ 1 / a.mass + 1 / b.mass ≠ 0 := by
  have hma := ha.mass_pos
  have hmb := hb.mass_pos
  exact ⟨updateChecked_eq sqrt a winSize gravityEnabled ha.2.2,
    resolveCollisionChecked_eq sqrt a b gravityEnabled hma hmb,
    fun h => ne_of_gt (lt_trans ha.2.2 h),
    ne_of_gt (collisionDistance_pos sqrt a b),
    ne_of_gt (add_pos hma hmb), ne_of_gt hma, ne_of_gt hmb,
    ne_of_gt (add_pos (one_div_pos.mpr hma) (one_div_pos.mpr hmb))⟩

/-- Witness for C16: two unit balls at rest with the same centre, in free
flight. -/
theorem no_division_by_zero_witness :
    updateChecked Real.sqrt (unitBall ℝ 0 0) (800, 600) false =
        some (update Real.sqrt (unitBall ℝ 0 0) (800, 600) false) ∧
      resolveCollisionChecked Real.sqrt (unitBall ℝ 0 0) (unitBall ℝ 0 0) false =
        some (resolveCollision Real.sqrt (unitBall ℝ 0 0) (unitBall ℝ 0 0) false) := by
  have hinv : BodyInv (unitBall ℝ 0 0) := by
    refine ⟨?_, ?_, ?_⟩ <;> norm_num [unitBall, Ball.new]
  obtain ⟨h1, h2, _⟩ := no_division_by_zero Real.sqrt (unitBall ℝ 0 0) (unitBall ℝ 0 0)
    (800, 600) false hinv hinv
  exact ⟨h1, h2⟩

end Division

/-! ## The frame loop (`step`) -/

section StepLemmas

variable {F : Type} [LinearOrderedField F]

/-- Writing back the element that is already there changes nothing. -/
lemma list_set_of_getElem? {α : Type} {l : List α} {i : ℕ} {a : α} (h : l[i]? = some a) :
    l.set i a = l := by
  apply List.ext_getElem?
  intro n
  rw [List.getElem?_set]
  split_ifs with h1 h2
  · subst h1
    exact h.symm
  · subst h1
    rw [List.getElem?_eq_none (not_lt.mp h2)]
  · rfl

/-- A property kept by every step of a left fold holds at its end. -/
lemma foldl_invariant {α β : Type} (P : β → Prop) (f : β → α → β) (l : List α) :
    ∀ b : β, P b → (∀ b a, a ∈ l → P b → P (f b a)) → P (l.foldl f b) := by
  induction l with
  | nil => intro b h0 _; exact h0
  | cons a l ih =>
    intro b h0 hstep
    rw [List.foldl_cons]
    exact ih (f b a) (hstep b a (List.mem_cons_self a l) h0)
      (fun b' a' ha' => hstep b' a' (List.mem_cons_of_mem a ha'))

/-- The loops of lines 238-239 only visit pairs `i < j`. -/
lemma lt_of_mem_indexPairs {n : ℕ} {p : ℕ × ℕ} (h : p ∈ indexPairs n) : p.1 < p.2 := by
  unfold indexPairs at h
  rw [List.mem_flatMap] at h
  obtain ⟨i, _, hp⟩ := h
  rw [List.mem_map] at hp
  obtain ⟨j, hj, rfl⟩ := hp
  rw [List.mem_range'] at hj
  obtain ⟨k, _, rfl⟩ := hj
  show i < i + 1 + 1 * k
  omega

/-- What the body of the inner loop does when both indices are valid and the
two balls collide. -/
lemma collidePair_of_collision (sqrt : F → F) (g : Bool)
    (st : List (Ball F) × List (ResolveCall F)) (i j : ℕ) (a b : Ball F)
    (hi : st.1[i]? = some a) (hj : st.1[j]? = some b) (hc : checkCollision a b = true) :
    collidePair sqrt g st i j =
      ((st.1.set i (resolveCollision sqrt a b g).1).set j (resolveCollision sqrt a b g).2,
        st.2 ++ [⟨i, j, a, b⟩]) := by
  simp only [collidePair, hi, hj, hc, if_true]

/-- Otherwise the body of the inner loop does nothing. -/
lemma collidePair_of_no_collision (sqrt : F → F) (g : Bool)
    (st : List (Ball F) × List (ResolveCall F)) (i j : ℕ)
    (h : ∀ a b, st.1[i]? = some a → st.1[j]? = some b → checkCollision a b = false) :
    collidePair sqrt g st i j = st := by
  unfold collidePair
  split
  · next a b hi hj =>
    rw [if_neg]
    rw [h a b hi hj]
    exact Bool.false_ne_true
  · rfl

/-- The body of the inner loop either does nothing or is a call of
`resolveCollision` on two balls of the list that collide. -/
lemma collidePair_cases (sqrt : F → F) (g : Bool)
    (st : List (Ball F) × List (ResolveCall F)) (i j : ℕ) :
    collidePair sqrt g st i j = st ∨
      ∃ a b, st.1[i]? = some a ∧ st.1[j]? = some b ∧ checkCollision a b = true ∧
        collidePair sqrt g st i j =
          ((st.1.set i (resolveCollision sqrt a b g).1).set j (resolveCollision sqrt a b g).2,
            st.2 ++ [⟨i, j, a, b⟩]) := by
  rcases h1 : st.1[i]? with _ | a
  · left
    simp only [collidePair, h1]
  · rcases h2 : st.1[j]? with _ | b
    · left
      simp only [collidePair, h1, h2]
    · rcases h3 : checkCollision a b with _ | _
      · left
        simp only [collidePair, h1, h2, h3, Bool.false_eq_true, if_false]
      · right
        exact ⟨a, b, rfl, rfl, h3, collidePair_of_collision sqrt g st i j a b h1 h2 h3⟩

/-- A property of single balls that `resolveCollision` keeps is kept by the
collision pass. -/
lemma collisionPass_forall (sqrt : F → F) (g : Bool) (Q : Ball F → Prop)
    (hQ : ∀ a b, Q a → Q b →
      Q (resolveCollision sqrt a b g).1 ∧ Q (resolveCollision sqrt a b g).2)
    (balls : List (Ball F)) (h : ∀ x ∈ balls, Q x) :
    ∀ x ∈ (collisionPass sqrt g balls).1, Q x := by
  unfold collisionPass
  apply foldl_invariant (fun st : List (Ball F) × List (ResolveCall F) => ∀ x ∈ st.1, Q x)
  · exact h
  · intro st p _ hst
    rcases collidePair_cases sqrt g st p.1 p.2 with e | ⟨a, b, hi, hj, _, e⟩
    · rw [e]
      exact hst
    · rw [e]
      have hab := hQ a b (hst a (List.mem_iff_getElem?.mpr ⟨_, hi⟩))
        (hst b (List.mem_iff_getElem?.mpr ⟨_, hj⟩))
      intro x hx
      rcases List.mem_or_eq_of_mem_set hx with hx1 | hx1
      · rcases List.mem_or_eq_of_mem_set hx1 with hx2 | hx2
        · exact hst x hx2
        · rw [hx2]
          exact hab.1
      · rw [hx1]
        exact hab.2

/-- An attribute of single balls that `resolveCollision` keeps is kept, index by
index, by the collision pass. -/
lemma collisionPass_map (sqrt : F → F) (g : Bool) {γ : Type} (f : Ball F → γ)
    (hf : ∀ a b, f (resolveCollision sqrt a b g).1 = f a ∧
      f (resolveCollision sqrt a b g).2 = f b)
    (balls : List (Ball F)) : (collisionPass sqrt g balls).1.map f = balls.map f := by
  unfold collisionPass
  apply foldl_invariant
    (fun st : List (Ball F) × List (ResolveCall F) => st.1.map f = balls.map f)
  · rfl
  · intro st p _ hst
    rcases collidePair_cases sqrt g st p.1 p.2 with e | ⟨a, b, hi, hj, _, e⟩
    · rw [e]
      exact hst
    · rw [e]
      show ((st.1.set p.1 _).set p.2 _).map f = balls.map f
      rw [List.map_set, List.map_set, (hf a b).1, (hf a b).2]
      have h1 : (st.1.map f)[p.1]? = some (f a) := by
        rw [List.getElem?_map, hi]
        rfl
      rw [list_set_of_getElem? h1]
      have h2 : (st.1.map f)[p.2]? = some (f b) := by
        rw [List.getElem?_map, hj]
        rfl
      rw [list_set_of_getElem? h2]
      exact hst

/-- Every call of `resolveCollision` that the collision pass makes is on a pair
for which `checkCollision` returned true. -/
lemma collisionPass_calls (sqrt : F → F) (g : Bool) (balls : List (Ball F)) :
    ∀ c ∈ (collisionPass sqrt g balls).2, checkCollision c.self c.other = true := by
  unfold collisionPass
  apply foldl_invariant (fun st : List (Ball F) × List (ResolveCall F) =>
    ∀ c ∈ st.2, checkCollision c.self c.other = true)
  · intro c hc
    exact absurd hc (List.not_mem_nil c)
  · intro st p _ hst
    rcases collidePair_cases sqrt g st p.1 p.2 with e | ⟨a, b, _, _, hab, e⟩
    · rw [e]
      exact hst
    · rw [e]
      intro c hc
      rcases List.mem_append.mp hc with h1 | h1
      · exact hst c h1
      · rw [List.mem_singleton.mp h1]
        exact hab

/-- When no pair `i < j` collides the collision pass changes no ball and makes
no call. -/
lemma collisionPass_of_no_overlap (sqrt : F → F) (g : Bool) (balls : List (Ball F))
    (h : ∀ (i j : ℕ) (a b : Ball F), i < j → balls[i]? = some a → balls[j]? = some b →
      checkCollision a b = false) :
    collisionPass sqrt g balls = (balls, []) := by
  unfold collisionPass
  apply foldl_invariant (fun st : List (Ball F) × List (ResolveCall F) => st = (balls, []))
  · rfl
  · intro st p hp hst
    rw [hst]
    exact collidePair_of_no_collision sqrt g (balls, []) p.1 p.2
      (fun a b hi hj => h p.1 p.2 a b (lt_of_mem_indexPairs hp) hi hj)

end StepLemmas

section Step

variable {F : Type} [LinearOrderedField F]

lemma separate_maxSpeed (a b : Ball F) (n : Vector2f F) (o : F) :
    (separate a b n o).1.maxSpeed = a.maxSpeed ∧ (separate a b n o).2.maxSpeed = b.maxSpeed := by
  unfold separate
  split_ifs <;> exact ⟨rfl, rfl⟩

/-- `resolveCollision` never changes a mass. -/
lemma resolveCollision_mass (sqrt : F → F) (a b : Ball F) (g : Bool) :
    (resolveCollision sqrt a b g).1.mass = a.mass ∧
      (resolveCollision sqrt a b g).2.mass = b.mass := by
  cases g with
  | true =>
    rw [resolveCollision_gravity]
    exact separate_mass _ _ _ _
  | false =>
    rcases lt_or_le 0 (velocityAlongNormal sqrt a b) with h | h
    · rw [resolveCollision_skip sqrt a b h]
      exact ⟨rfl, rfl⟩
    · rw [resolveCollision_impulse sqrt a b h]
      exact separate_mass _ _ _ _

/-- `resolveCollision` never changes a speed cap. -/
lemma resolveCollision_maxSpeed (sqrt : F → F) (a b : Ball F) (g : Bool) :
    (resolveCollision sqrt a b g).1.maxSpeed = a.maxSpeed ∧
      (resolveCollision sqrt a b g).2.maxSpeed = b.maxSpeed := by
  cases g with
  | true =>
    rw [resolveCollision_gravity]
    exact separate_maxSpeed _ _ _ _
  | false =>
    rcases lt_or_le 0 (velocityAlongNormal sqrt a b) with h | h
    · rw [resolveCollision_skip sqrt a b h]
      exact ⟨rfl, rfl⟩
    · rw [resolveCollision_impulse sqrt a b h]
      exact separate_maxSpeed _ _ _ _

lemma update_mass (sqrt : F → F) (ball : Ball F) (winSize : ℕ × ℕ) (g : Bool) :
    (update sqrt ball winSize g).mass = ball.mass := rfl

/-- The invariant only reads the radius, the mass and the speed cap. -/
lemma BodyInv.congr {p q : Ball F} (h : BodyInv p) (hr : q.radius = p.radius)
    (hm : q.mass = p.mass) (hs : q.maxSpeed = p.maxSpeed) : BodyInv q := by
  unfold BodyInv
  rw [hr, hm, hs]
  exact h

lemma resolveCollision_bodyInv (sqrt : F → F) (a b : Ball F) (g : Bool) (ha : BodyInv a)
    (hb : BodyInv b) :
    BodyInv (resolveCollision sqrt a b g).1 ∧ BodyInv (resolveCollision sqrt a b g).2 :=
  ⟨ha.congr (resolveCollision_radius sqrt a b g).1 (resolveCollision_mass sqrt a b g).1
      (resolveCollision_maxSpeed sqrt a b g).1,
    hb.congr (resolveCollision_radius sqrt a b g).2 (resolveCollision_mass sqrt a b g).2
      (resolveCollision_maxSpeed sqrt a b g).2⟩

/-- An attribute that `update` and `resolveCollision` keep is kept, index by
index, by `step`. -/
lemma step_map (sqrt : F → F) (g : Bool) (winSize : ℕ × ℕ) {γ : Type} (f : Ball F → γ)
    (hu : ∀ ball, f (update sqrt ball winSize g) = f ball)
    (hf : ∀ a b, f (resolveCollision sqrt a b g).1 = f a ∧
      f (resolveCollision sqrt a b g).2 = f b)
    (balls : List (Ball F)) : (step sqrt balls winSize g).map f = balls.map f := by
  unfold step
  rw [List.map_map, ← collisionPass_map sqrt g f hf balls]
  apply List.map_congr_left
  intro ball _
  exact hu ball

/-- The number of balls is the same after `step`. -/
lemma step_length (sqrt : F → F) (balls : List (Ball F)) (winSize : ℕ × ℕ) (g : Bool) :
    (step sqrt balls winSize g).length = balls.length := by
  have hl := congrArg List.length (step_map sqrt g winSize (fun ball : Ball F => ball.radius)
    (fun _ => rfl) (fun a b => resolveCollision_radius sqrt a b g) balls)
  rwa [List.length_map, List.length_map] at hl

/-- The unit sample balls satisfy the invariant. -/
lemma unitBall_bodyInv (x v : ℝ) : BodyInv (unitBall ℝ x v) := by
  refine ⟨?_, ?_, ?_⟩ <;> norm_num [unitBall, Ball.new]

/-- C12: when no pair `i < j` of the collection collides, one frame (collision
pass, then integration) yields exactly the collection obtained by calling
`update` on every ball independently, and the collision pass makes no call of
`resolveCollision`.  For any collection whatever, every call of
`resolveCollision` that the collision pass makes is on a pair for which
`checkCollision` returned true. -/
theorem step_without_collision (sqrt : F → F) (balls : List (Ball F)) (winSize : ℕ × ℕ)
    (gravityEnabled : Bool)
    (h : ∀ (i j : ℕ) (a b : Ball F), i < j → balls[i]? = some a → balls[j]? = some b →
      checkCollision a b = false) :
    step sqrt balls winSize gravityEnabled =
        balls.map (fun ball => update sqrt ball winSize gravityEnabled) ∧
      (collisionPass sqrt gravityEnabled balls).2 = [] ∧
      ∀ others : List (Ball F), ∀ c ∈ (collisionPass sqrt gravityEnabled others).2,
        checkCollision c.self c.other = true := by
  have e := collisionPass_of_no_overlap sqrt gravityEnabled balls h
  refine ⟨?_, ?_, fun others => collisionPass_calls sqrt gravityEnabled others⟩
  · rw [step, e]
  · rw [e]

/-- Witness for C12: two unit balls five apart, which do not collide. -/
theorem step_without_collision_witness :
    step Real.sqrt [unitBall ℝ 0 1, unitBall ℝ 5 (-1)] (800, 600) false =
        [update Real.sqrt (unitBall ℝ 0 1) (800, 600) false,
          update Real.sqrt (unitBall ℝ 5 (-1)) (800, 600) false] ∧
      (collisionPass Real.sqrt false [unitBall ℝ 0 1, unitBall ℝ 5 (-1)]).2 = [] := by
  obtain ⟨h1, h2, _⟩ := step_without_collision Real.sqrt [unitBall ℝ 0 1, unitBall ℝ 5 (-1)]
    (800, 600) false (by
      intro i j a b hij hi hj
      rcases i with _ | i
      · rcases j with _ | _ | j
        · omega
        · simp only [List.getElem?_cons_zero, List.getElem?_cons_succ, Option.some.injEq] at hi hj
          rw [← hi, ← hj]
          norm_num [checkCollision, unitBall, Ball.new, Vector2f.sub]
        · simp at hj
      · rcases j with _ | _ | j
        · omega
        · rcases i with _ | i
          · omega
          · simp at hi
        · simp at hj)
  exact ⟨h1, h2⟩
/-- C13: the kernel only writes positions and velocities.  The constructor sets
`mass = radius²`; `update`, `resolveCollision` and `step` leave every radius,
mass and speed cap as they were, and `step` leaves the number of balls and,
index by index, their radii, masses and speed caps unchanged.  Hence the
invariant `radius > 0 ∧ mass = radius² ∧ maxSpeed > 0` is established by the
constructor (for a positive radius and cap) and kept by every operation. -/
theorem kernel_frame (sqrt : F → F) (winSize : ℕ × ℕ) (gravityEnabled : Bool) :
    (∀ (radius : F) (position velocity : Vector2f F) (maxSpeed : F),
        (Ball.new radius position velocity maxSpeed).mass = radius * radius ∧
          (Ball.new radius position velocity maxSpeed).radius = radius ∧
          (Ball.new radius position velocity maxSpeed).maxSpeed = maxSpeed) ∧
      (∀ ball : Ball F,
        (update sqrt ball winSize gravityEnabled).radius = ball.radius ∧
          (update sqrt ball winSize gravityEnabled).mass = ball.mass ∧
          (update sqrt ball winSize gravityEnabled).maxSpeed = ball.maxSpeed) ∧
      (∀ a b : Ball F,
        (resolveCollision sqrt a b gravityEnabled).1.radius = a.radius ∧
          (resolveCollision sqrt a b gravityEnabled).1.mass = a.mass ∧
          (resolveCollision sqrt a b gravityEnabled).1.maxSpeed = a.maxSpeed ∧
          (resolveCollision sqrt a b gravityEnabled).2.radius = b.radius ∧
          (resolveCollision sqrt a b gravityEnabled).2.mass = b.mass ∧
          (resolveCollision sqrt a b gravityEnabled).2.maxSpeed = b.maxSpeed) ∧
      (∀ balls : List (Ball F),
        (step sqrt balls winSize gravityEnabled).length = balls.length ∧
          (step sqrt balls winSize gravityEnabled).map (fun ball => ball.radius) =
            balls.map (fun ball => ball.radius) ∧
          (step sqrt balls winSize gravityEnabled).map (fun ball => ball.mass) =
            balls.map (fun ball => ball.mass) ∧
          (step sqrt balls winSize gravityEnabled).map (fun ball => ball.maxSpeed) =
            balls.map (fun ball => ball.maxSpeed)) ∧
      (∀ (radius : F) (position velocity : Vector2f F) (maxSpeed : F),
        0 < radius → 0 < maxSpeed → BodyInv (Ball.new radius position velocity maxSpeed)) ∧
      (∀ ball : Ball F, BodyInv ball → BodyInv (update sqrt ball winSize gravityEnabled)) ∧
      (∀ a b : Ball F, BodyInv a → BodyInv b →
        BodyInv (resolveCollision sqrt a b gravityEnabled).1 ∧
          BodyInv (resolveCollision sqrt a b gravityEnabled).2) ∧
      (∀ balls : List (Ball F), (∀ ball ∈ balls, BodyInv ball) →
        ∀ ball ∈ step sqrt balls winSize gravityEnabled, BodyInv ball) := by
  have hr := step_map sqrt gravityEnabled winSize (fun ball : Ball F => ball.radius)
    (fun _ => rfl) (fun a b => resolveCollision_radius sqrt a b gravityEnabled)
  have hm := step_map sqrt gravityEnabled winSize (fun ball : Ball F => ball.mass)
    (fun _ => rfl) (fun a b => resolveCollision_mass sqrt a b gravityEnabled)
  have hs := step_map sqrt gravityEnabled winSize (fun ball : Ball F => ball.maxSpeed)
    (fun _ => rfl) (fun a b => resolveCollision_maxSpeed sqrt a b gravityEnabled)
  refine ⟨fun _ _ _ _ => ⟨rfl, rfl, rfl⟩, fun _ => ⟨rfl, rfl, rfl⟩, fun a b => ?_, fun balls => ?_,
    fun radius _ _ maxSpeed h1 h2 => ⟨h1, rfl, h2⟩, fun ball h => h.congr rfl rfl rfl,
    fun a b ha hb => resolveCollision_bodyInv sqrt a b gravityEnabled ha hb,
    fun balls hall ball hball => ?_⟩
  · exact ⟨(resolveCollision_radius sqrt a b gravityEnabled).1,
      (resolveCollision_mass sqrt a b gravityEnabled).1,
      (resolveCollision_maxSpeed sqrt a b gravityEnabled).1,
      (resolveCollision_radius sqrt a b gravityEnabled).2,
      (resolveCollision_mass sqrt a b gravityEnabled).2,
      (resolveCollision_maxSpeed sqrt a b gravityEnabled).2⟩
  · exact ⟨step_length sqrt balls winSize gravityEnabled, hr balls, hm balls, hs balls⟩
  · unfold step at hball
    rw [List.mem_map] at hball
    obtain ⟨b0, hb0, rfl⟩ := hball
    have h0 := collisionPass_forall sqrt gravityEnabled BodyInv
      (fun a b ha hb => resolveCollision_bodyInv sqrt a b gravityEnabled ha hb) balls hall b0 hb0
    exact h0.congr rfl rfl rfl

/-- In a window at least as wide and as high as the diameter, `update` leaves
the centre between the walls. -/
lemma update_position_bounds (sqrt : F → F) (ball : Ball F) (winSize : ℕ × ℕ) (g : Bool)
    (hw : 2 * ball.radius ≤ (winSize.1 : F)) (hh : 2 * ball.radius ≤ (winSize.2 : F)) :
    ball.radius ≤ (update sqrt ball winSize g).position.x ∧
      (update sqrt ball winSize g).position.x ≤ (winSize.1 : F) - ball.radius ∧
      ball.radius ≤ (update sqrt ball winSize g).position.y ∧
      (update sqrt ball winSize g).position.y ≤ (winSize.2 : F) - ball.radius := by
  rw [update_position_x, update_position_y]
  exact ⟨(bounceAxis_fst_mem _ _ _ _ _ hw).1, (bounceAxis_fst_mem _ _ _ _ _ hw).2,
    (bounceAxis_fst_mem _ _ _ _ _ hh).1, (bounceAxis_fst_mem _ _ _ _ _ hh).2⟩

/-- With a positive cap, `update` leaves the ball no faster than the cap. -/
lemma update_speed_le {sqrt : F → F} (hs : IsSqrt sqrt) (ball : Ball F) (winSize : ℕ × ℕ)
    (g : Bool) (hm : 0 < ball.maxSpeed) :
    speed sqrt (update sqrt ball winSize g).velocity ≤ ball.maxSpeed := by
  rw [speed, update_velocity_x, update_velocity_y]
  apply hs.le_of_le_mul_self (sumSq_nonneg _ _) (le_of_lt hm)
  have hx := bounceAxis_snd_sq_le (tentativePosition sqrt ball g).x
    (clampedVelocity sqrt ball g).x ball.radius (winSize.1 : F)
    (bounceFactor g) (bounceFactor_nonneg _) (bounceFactor_le_one _)
  have hy := bounceAxis_snd_sq_le (tentativePosition sqrt ball g).y
    (clampedVelocity sqrt ball g).y ball.radius (winSize.2 : F)
    (bounceFactor g) (bounceFactor_nonneg _) (bounceFactor_le_one _)
  have hl : (clampedVelocity sqrt ball g).x * (clampedVelocity sqrt ball g).x +
      (clampedVelocity sqrt ball g).y * (clampedVelocity sqrt ball g).y ≤
        ball.maxSpeed * ball.maxSpeed :=
    limitSpeed_sq_le hs (applyGravity ball.velocity g) ball.maxSpeed hm
  linarith

/-- C14: the invariant of a frame.  For a collection of balls that satisfy the
ball invariant, a window at least as wide and as high as twice every radius,
and either mode, after one `step` every ball is contained
(`r ≤ x ≤ width - r`, `r ≤ y ≤ height - r`) and no faster than its cap,
however many collisions the frame resolved and wherever they left the balls:
`update` runs on every ball once, after all pairs. -/
theorem step_containment_and_speed_cap (sqrt : F → F) (hs : IsSqrt sqrt)
    (balls : List (Ball F)) (winSize : ℕ × ℕ) (gravityEnabled : Bool)
    (hinv : ∀ ball ∈ balls, BodyInv ball)
    (hw : ∀ ball ∈ balls, 2 * ball.radius ≤ (winSize.1 : F))
    (hh : ∀ ball ∈ balls, 2 * ball.radius ≤ (winSize.2 : F)) :
    ∀ ball ∈ step sqrt balls winSize gravityEnabled,
      ball.radius ≤ ball.position.x ∧ ball.position.x ≤ (winSize.1 : F) - ball.radius ∧
        ball.radius ≤ ball.position.y ∧ ball.position.y ≤ (winSize.2 : F) - ball.radius ∧
        speed sqrt ball.velocity ≤ ball.maxSpeed := by
  intro ball hball
  unfold step at hball
  rw [List.mem_map] at hball
  obtain ⟨b0, hb0, rfl⟩ := hball
  have h0 := collisionPass_forall sqrt gravityEnabled
    (fun ball : Ball F => BodyInv ball ∧ 2 * ball.radius ≤ (winSize.1 : F) ∧
      2 * ball.radius ≤ (winSize.2 : F))
    (fun a b ha hb => by
      obtain ⟨r1, r2⟩ := resolveCollision_radius sqrt a b gravityEnabled
      obtain ⟨i1, i2⟩ := resolveCollision_bodyInv sqrt a b gravityEnabled ha.1 hb.1
      have ha2 : 2 * a.radius ≤ (winSize.1 : F) ∧ 2 * a.radius ≤ (winSize.2 : F) := ha.2
      have hb2 : 2 * b.radius ≤ (winSize.1 : F) ∧ 2 * b.radius ≤ (winSize.2 : F) := hb.2
      rw [← r1] at ha2
      rw [← r2] at hb2
      exact ⟨⟨i1, ha2⟩, ⟨i2, hb2⟩⟩)
    balls (fun x hx => ⟨hinv x hx, hw x hx, hh x hx⟩) b0 hb0
  obtain ⟨c1, c2, c3, c4⟩ := update_position_bounds sqrt b0 winSize gravityEnabled h0.2.1
    h0.2.2
  exact ⟨c1, c2, c3, c4, update_speed_le hs b0 winSize gravityEnabled h0.1.2.2⟩

/-- Witness for C14: three unit balls, two with the same centre and a third one
apart, in an 800 by 600 window with gravity on. -/
theorem step_containment_and_speed_cap_witness :
    (step Real.sqrt [unitBall ℝ 0 1, unitBall ℝ 0 (-1), unitBall ℝ 1 3] (800, 600) true).length
        = 3 ∧
      ∀ ball ∈ step Real.sqrt [unitBall ℝ 0 1, unitBall ℝ 0 (-1), unitBall ℝ 1 3] (800, 600) true,
        ball.radius ≤ ball.position.x ∧
          ball.position.x ≤ (((800, 600) : ℕ × ℕ).1 : ℝ) - ball.radius ∧
          ball.radius ≤ ball.position.y ∧
          ball.position.y ≤ (((800, 600) : ℕ × ℕ).2 : ℝ) - ball.radius ∧
          speed Real.sqrt ball.velocity ≤ ball.maxSpeed :=
  ⟨step_length Real.sqrt _ (800, 600) true,
    step_containment_and_speed_cap Real.sqrt isSqrt_real
      [unitBall ℝ 0 1, unitBall ℝ 0 (-1), unitBall ℝ 1 3] (800, 600) true
      (by
        intro ball hb
        simp only [List.mem_cons, List.mem_singleton, List.not_mem_nil, or_false] at hb
        rcases hb with rfl | rfl | rfl <;> exact unitBall_bodyInv _ _)
      (by
        intro ball hb
        simp only [List.mem_cons, List.mem_singleton, List.not_mem_nil, or_false] at hb
        rcases hb with rfl | rfl | rfl <;> rw [unitBall_radius] <;> norm_num)
      (by
        intro ball hb
        simp only [List.mem_cons, List.mem_singleton, List.not_mem_nil, or_false] at hb
        rcases hb with rfl | rfl | rfl <;> rw [unitBall_radius] <;> norm_num)⟩

end Step

end Bro
